import Mathlib

set_option maxHeartbeats 1000000

set_option linter.unnecessarySeqFocus false

/-!
Verification of the HIR-to-LIR rationalization pass (src/jit/rationalize.cpp).

The development shallowly embeds the rewrite pass.  IR trees are an inductive
type carrying a node identity, operator kind, value type, flag bitset and up to
two operand subtrees (the fixed-arity `gtOp1`/`gtOp2` operand model); the
block's doubly linked linear order is embedded as a list of node identities,
and the in-place pointer mutations of the C++ code become functional updates
that preserve node identity.  Fatal conditions (`noway_assert`, `unreached`)
are embedded as `Option.none`; debug-only `assert` statements are checks that
do not change behaviour and are not modelled.  The `FEATURE_SIMD` regions are
modelled as compiled out (the vector feature disabled), and the
`_TARGET_XARCH_` region as compiled in, matching one legal build of the file.
-/

/-- Flag bits of a node's flag bitset (the `GTF_*` bits used by the pass):
side-effect class bits, liveness bits, indirection qualifiers, the
reverse-evaluation-order bit, the late-argument marker, and block-operation
qualifiers.  The bitset itself is embedded as a function `FlagBit → Bool`. -/
inductive FlagBit where
  | ASG | CALL | EXCEPT | GLOB_REF | ORDER_SIDEEFF
  | VAR_DEF | VAR_USEASG | VAR_USEDEF
  | IND_VOLATILE | IND_UNALIGNED | IND_TGT_ANYWHERE
  | REVERSE_OPS | LATE_ARG | DONT_CSE
  | BLK_VOLATILE | BLK_UNALIGNED | BLK_INIT
  | LIST_AGGREGATE
  deriving DecidableEq, Fintype

/-- A node flag bitset. -/
abbrev Flags := FlagBit → Bool

/-- The empty flag bitset. -/
def noFlags : Flags := fun _ => false

/-- All flag bits, for effect tests on bitsets. -/
def allFlagBits : List FlagBit :=
  [.ASG, .CALL, .EXCEPT, .GLOB_REF, .ORDER_SIDEEFF,
   .VAR_DEF, .VAR_USEASG, .VAR_USEDEF,
   .IND_VOLATILE, .IND_UNALIGNED, .IND_TGT_ANYWHERE,
   .REVERSE_OPS, .LATE_ARG, .DONT_CSE,
   .BLK_VOLATILE, .BLK_UNALIGNED, .BLK_INIT, .LIST_AGGREGATE]

/-- GTF_ALL_EFFECT: the side-effect class mask. -/
def GTF_ALL_EFFECT : FlagBit → Bool
  | .ASG | .CALL | .EXCEPT | .GLOB_REF | .ORDER_SIDEEFF => true
  | _ => false

/-- GTF_LIVENESS_MASK: the liveness flag bits of local accesses. -/
def GTF_LIVENESS_MASK : FlagBit → Bool
  | .VAR_DEF | .VAR_USEASG | .VAR_USEDEF => true
  | _ => false

/-- GTF_IND_FLAGS: the indirection qualifier bits. -/
def GTF_IND_FLAGS : FlagBit → Bool
  | .IND_VOLATILE | .IND_UNALIGNED | .IND_TGT_ANYWHERE => true
  | _ => false

/-- The mask ORed from the assignment onto a block store by the block-store
rewrite: GTF_ALL_EFFECT | GTF_REVERSE_OPS | GTF_BLK_VOLATILE |
GTF_BLK_UNALIGNED | GTF_BLK_INIT | GTF_DONT_CSE. -/
def blkStoreMask : FlagBit → Bool
  | .ASG | .CALL | .EXCEPT | .GLOB_REF | .ORDER_SIDEEFF => true
  | .REVERSE_OPS | .BLK_VOLATILE | .BLK_UNALIGNED | .BLK_INIT | .DONT_CSE => true
  | _ => false

/-- copyFlags: copy the flags selected by mask from src to dst
(`dst->gtFlags &= ~mask; dst->gtFlags |= (src->gtFlags & mask);`). -/
def copyFlags (dst src : Flags) (mask : FlagBit → Bool) : Flags :=
  fun b => if mask b then src b else dst b

/-- Set one flag bit. -/
def setBit (f : Flags) (x : FlagBit) : Flags :=
  fun b => if b = x then true else f b

/-- Clear one flag bit. -/
def clearBit (f : Flags) (x : FlagBit) : Flags :=
  fun b => if b = x then false else f b

/-- Bitwise OR of two flag bitsets. -/
def orFlags (f g : Flags) : Flags := fun b => f b || g b

/-- Bitwise AND of a bitset with a mask. -/
def maskFlags (f : Flags) (m : FlagBit → Bool) : Flags := fun b => f b && m b

/-- Test `(flags & mask) != 0`. -/
def flagsAny (f : Flags) (m : FlagBit → Bool) : Bool :=
  allFlagBits.any fun b => f b && m b

/-- The operator kinds (genTreeOps) relevant to the rationalization pass. -/
inductive genTreeOps where
  | GT_LCL_VAR | GT_LCL_FLD | GT_REG_VAR | GT_PHI_ARG
  | GT_STORE_LCL_VAR | GT_STORE_LCL_FLD
  | GT_LCL_VAR_ADDR | GT_LCL_FLD_ADDR
  | GT_IND | GT_STOREIND
  | GT_CLS_VAR | GT_CLS_VAR_ADDR
  | GT_BLK | GT_OBJ | GT_DYN_BLK
  | GT_STORE_BLK | GT_STORE_OBJ | GT_STORE_DYN_BLK
  | GT_ASG | GT_ADDR | GT_BOX | GT_NOP | GT_COMMA
  | GT_LIST | GT_ARGPLACE | GT_INTRINSIC | GT_CALL
  | GT_CNS_INT | GT_ADD | GT_IL_OFFSET
  deriving DecidableEq, Fintype

open genTreeOps FlagBit

/-- Value types (var_types) relevant to the pass. -/
inductive var_types where
  | TYP_INT | TYP_LONG | TYP_BYREF | TYP_STRUCT | TYP_I_IMPL | TYP_VOID | TYP_DOUBLE
  deriving DecidableEq

open var_types

/-- Side data of a node: local-variable number, SSA number, local-field offset
and field-sequence descriptor for local accesses; the method handle for
intrinsics and calls (all opaque numbers in the embedding). -/
structure LclInfo where
  lclNum : Nat
  ssaNum : Nat
  lclOffs : Nat
  fieldSeq : Nat
  handle : Nat
  deriving DecidableEq

/-- The empty side-data record. -/
def LclInfo.empty : LclInfo := ⟨0, 0, 0, 0, 0⟩

/-- An IR tree node (GenTree): node identity (the arena address, made explicit
so that in-place mutation can be tracked), operator kind, value type, flag
bitset, side data, call-argument table (the recorded argument node identities
of a call, kept by the external argument binder), and the `gtOp1`/`gtOp2`
operand subtrees. -/
inductive GT where
  | nd : Nat → genTreeOps → var_types → Flags → LclInfo → List Nat →
         Option GT → Option GT → GT

/-- Node identity. -/
def GT.id : GT → Nat
  | .nd i _ _ _ _ _ _ _ => i

/-- Operator kind (OperGet). -/
def GT.oper : GT → genTreeOps
  | .nd _ op _ _ _ _ _ _ => op

/-- Value type (TypeGet). -/
def GT.typ : GT → var_types
  | .nd _ _ ty _ _ _ _ _ => ty

/-- Flag bitset (gtFlags). -/
def GT.flags : GT → Flags
  | .nd _ _ _ f _ _ _ _ => f

/-- Side data. -/
def GT.lcl : GT → LclInfo
  | .nd _ _ _ _ l _ _ _ => l

/-- The call-argument table: recorded argument node identities. -/
def GT.argTab : GT → List Nat
  | .nd _ _ _ _ _ at1 _ _ => at1

/-- First operand (gtGetOp1). -/
def GT.op1 : GT → Option GT
  | .nd _ _ _ _ _ _ o1 _ => o1

/-- Second operand (gtGetOp2). -/
def GT.op2 : GT → Option GT
  | .nd _ _ _ _ _ _ _ o2 => o2

/-- Replace the operator kind (SetOper). -/
def GT.withOper : GT → genTreeOps → GT
  | .nd i _ ty f l a o1 o2, op => .nd i op ty f l a o1 o2

/-- Replace the value type. -/
def GT.withTyp : GT → var_types → GT
  | .nd i op _ f l a o1 o2, ty => .nd i op ty f l a o1 o2

/-- Replace the flag bitset. -/
def GT.withFlags : GT → Flags → GT
  | .nd i op ty _ l a o1 o2, f => .nd i op ty f l a o1 o2

/-- Replace the argument table. -/
def GT.withArgTab : GT → List Nat → GT
  | .nd i op ty f l _ o1 o2, a => .nd i op ty f l a o1 o2

/-- Replace the first operand. -/
def GT.withOp1 : GT → Option GT → GT
  | .nd i op ty f l a _ o2, o1 => .nd i op ty f l a o1 o2

/-- Replace the second operand. -/
def GT.withOp2 : GT → Option GT → GT
  | .nd i op ty f l a o1 _, o2 => .nd i op ty f l a o1 o2

mutual
/-- Modelled from the spec: the per-statement execution-order threading
established by the external fgSetTreeSeq — a postorder linearization in which
a node's operands precede it, the second operand first when the
reverse-evaluation-order flag is set. -/
def GT.linOrder : GT → List Nat
  | .nd i _ _ f _ _ o1 o2 =>
      (if f .REVERSE_OPS then GT.linOrderOpt o2 ++ GT.linOrderOpt o1
       else GT.linOrderOpt o1 ++ GT.linOrderOpt o2) ++ [i]

/-- Linearization of an optional subtree. -/
def GT.linOrderOpt : Option GT → List Nat
  | none => []
  | some t => GT.linOrder t
end

mutual
/-- All operand edges of a tree, as (consumer identity, defining identity)
pairs. -/
def GT.edges : GT → List (Nat × Nat)
  | .nd i _ _ _ _ _ o1 o2 => GT.edgesOpt i o1 ++ GT.edgesOpt i o2

/-- Edges contributed by one operand slot of consumer i. -/
def GT.edgesOpt : Nat → Option GT → List (Nat × Nat)
  | _, none => []
  | i, some t => (i, GT.id t) :: GT.edges t
end

mutual
/-- All nodes of a tree, including the root. -/
def GT.allNodes : GT → List GT
  | .nd i op ty f l a o1 o2 =>
      GT.nd i op ty f l a o1 o2 :: (GT.allNodesOpt o1 ++ GT.allNodesOpt o2)

/-- All nodes of an optional subtree. -/
def GT.allNodesOpt : Option GT → List GT
  | none => []
  | some t => GT.allNodes t
end

mutual
/-- Kind entries (identity, operator, aggregate marker) of every node of a
tree; this mirrors the operator field readable through the arena from a bare
node identity (used by the preceding-list cleanup, which inspects `gtPrev`
nodes that may belong to other statements). -/
def GT.kindEntries : GT → List (Nat × (genTreeOps × Bool))
  | .nd i op _ f _ _ o1 o2 =>
      (i, (op, f .LIST_AGGREGATE)) ::
        (GT.kindEntriesOpt o1 ++ GT.kindEntriesOpt o2)

/-- Kind entries of an optional subtree. -/
def GT.kindEntriesOpt : Option GT → List (Nat × (genTreeOps × Bool))
  | none => []
  | some t => GT.kindEntries t
end

/-- storeForm: the store equivalent of the given load opcode; fatal
(noway_assert / unreached, embedded as none) for register variables and for
any kind that is not a data load opcode. -/
def storeForm : genTreeOps → Option genTreeOps
  | GT_LCL_VAR => some GT_STORE_LCL_VAR
  | GT_LCL_FLD => some GT_STORE_LCL_FLD
  | GT_REG_VAR => none
  | _ => none

/-- addrForm: the address equivalent of the given load opcode; fatal for any
kind that is not a data load opcode. -/
def addrForm : genTreeOps → Option genTreeOps
  | GT_LCL_VAR => some GT_LCL_VAR_ADDR
  | GT_LCL_FLD => some GT_LCL_FLD_ADDR
  | _ => none

/-- loadForm: the load equivalent of the given addr opcode; fatal for any kind
that is not a local address opcode. -/
def loadForm : genTreeOps → Option genTreeOps
  | GT_LCL_VAR_ADDR => some GT_LCL_VAR
  | GT_LCL_FLD_ADDR => some GT_LCL_FLD
  | _ => none

/-- OperIsLocal: the local-access operator family. -/
def OperIsLocal : genTreeOps → Bool
  | GT_LCL_VAR | GT_LCL_FLD | GT_STORE_LCL_VAR | GT_STORE_LCL_FLD
  | GT_REG_VAR | GT_PHI_ARG => true
  | _ => false

/-- OperIsLocalStore: local store kinds. -/
def OperIsLocalStore : genTreeOps → Bool
  | GT_STORE_LCL_VAR | GT_STORE_LCL_FLD => true
  | _ => false

/-- OperIsLocalRead: local kinds that read (are local and not a store). -/
def OperIsLocalRead (k : genTreeOps) : Bool :=
  OperIsLocal k && !OperIsLocalStore k

/-- OperIsIndir: indirection kinds. -/
def OperIsIndir : genTreeOps → Bool
  | GT_IND | GT_STOREIND | GT_BLK | GT_OBJ | GT_DYN_BLK => true
  | _ => false

/-- The plain local read kinds (the `read kind` side of the store/address/load
form pairing of the spec). -/
def isLocalReadKind : genTreeOps → Bool
  | GT_LCL_VAR | GT_LCL_FLD => true
  | _ => false

/-- The local address kinds. -/
def isLocalAddrKind : genTreeOps → Bool
  | GT_LCL_VAR_ADDR | GT_LCL_FLD_ADDR => true
  | _ => false

/-- Insert the nodes ns immediately before the first occurrence of anchor in
the linear order (LIR InsertBefore, modelled from the spec: splice nodes into
linear order adjacent to an anchor). -/
def insertBeforeId (order : List Nat) (anchor : Nat) (ns : List Nat) : List Nat :=
  match order with
  | [] => []
  | x :: rest =>
      if x = anchor then ns ++ x :: rest
      else x :: insertBeforeId rest anchor ns

/-- Insert the nodes ns immediately after the first occurrence of anchor in
the linear order (LIR InsertAfter, modelled from the spec). -/
def insertAfterId (order : List Nat) (anchor : Nat) (ns : List Nat) : List Nat :=
  match order with
  | [] => []
  | x :: rest =>
      if x = anchor then x :: (ns ++ rest)
      else x :: insertAfterId rest anchor ns

/-- Replace the first occurrence of a by n. -/
def replaceFirst (l : List Nat) (a n : Nat) : List Nat :=
  match l with
  | [] => []
  | x :: r => if x = a then n :: r else x :: replaceFirst r a n

/-- Remove every listed identity from the linear order (LIR Delete of a
closed range, modelled from the spec: for a closed subtree range the range's
contents are exactly the subtree's nodes). -/
def removeIds (order : List Nat) (ids : List Nat) : List Nat :=
  order.filter (fun x => !ids.contains x)

/-- Record the operator kind (and aggregate marker) now carried by a node
identity. -/
def setKind (ks : List (Nat × (genTreeOps × Bool))) (i : Nat)
    (k : genTreeOps) (agg : Bool) : List (Nat × (genTreeOps × Bool)) :=
  (i, (k, agg)) :: ks

/-- Read the operator kind carried by a node identity. -/
def kindOf (ks : List (Nat × (genTreeOps × Bool))) (i : Nat) : genTreeOps × Bool :=
  (ks.lookup i).getD (GT_NOP, false)

/-- Rewrite-pass state: the block's linear order, the identity-to-operator
view of the arena, and the fresh-identity counter for synthesized nodes. -/
structure RState where
  order : List Nat
  kinds : List (Nat × (genTreeOps × Bool))
  fresh : Nat

/-- Remove the non-aggregate GT_LIST nodes immediately preceding node i in
linear order (the `node->gtPrev` cleanup loop at the head of RewriteNode). -/
def stripPrecLists (ks : List (Nat × (genTreeOps × Bool)))
    (order : List Nat) (i : Nat) : List Nat :=
  let pre := order.takeWhile (fun x => x ≠ i)
  let suf := order.dropWhile (fun x => x ≠ i)
  (pre.reverse.dropWhile
      (fun x => (kindOf ks x).1 == GT_LIST && !(kindOf ks x).2)).reverse ++ suf

/-- fgFixupArgTabEntryPtr: fix up the argument-table entry of parentCall after
replacing oldArg with newArg.  If the old argument carries the late-argument
marker, only the marker is propagated onto the new node and the table is left
alone; otherwise the entry recording the old node (located by the external
gtArgEntryByNode, fatal if absent) is redirected to the new node.  Returns the
updated call and the (possibly marker-tagged) new argument. -/
def fgFixupArgTabEntryPtr (parentCall oldArg newArg : GT) : Option (GT × GT) :=
  if oldArg.flags .LATE_ARG then
    some (parentCall, newArg.withFlags (setBit newArg.flags .LATE_ARG))
  else if parentCall.argTab.contains oldArg.id then
    some (parentCall.withArgTab (replaceFirst parentCall.argTab oldArg.id newArg.id),
          newArg)
  else none

/-- The climb of isNodeCallArg combined with the fixup of fgFixupIfCallArg,
over the ancestors above the current node: skip GT_LIST and GT_ARGPLACE
scaffolding; at a GT_NOP whose operand is a call, fix up that call (the legacy
one-level-deeper workaround); at a GT_CALL, fix it up; at any other kind stop
with no fixup.  Returns the updated ancestor list and new argument. -/
def findAndFixup : List GT → GT → GT → Option (List GT × GT)
  | [], _, new => some ([], new)
  | g :: gs, old, new =>
      match g.oper with
      | GT_LIST | GT_ARGPLACE =>
          (findAndFixup gs old new).map (fun r => (g :: r.1, r.2))
      | GT_NOP =>
          match g.op1 with
          | some c =>
              if c.oper == GT_CALL then
                (fgFixupArgTabEntryPtr c old new).map
                  (fun r => (g.withOp1 (some r.1) :: gs, r.2))
              else (findAndFixup gs old new).map (fun r => (g :: r.1, r.2))
          | none => (findAndFixup gs old new).map (fun r => (g :: r.1, r.2))
      | GT_CALL =>
          (fgFixupArgTabEntryPtr g old new).map (fun r => (r.1 :: gs, r.2))
      | _ => some (g :: gs, new)

/-- fgFixupIfCallArg: index 0 of the parent stack is the current node, so the
climb starts at index 1. -/
def fgFixupIfCallArg (parentStack : List GT) (old new : GT) : Option (List GT × GT) :=
  match parentStack with
  | [] => some ([], new)
  | top :: rest => (findAndFixup rest old new).map (fun r => (top :: r.1, r.2))

/-- RewriteAssignmentIntoStoreLclCore: convert the assignment node itself, in
place, into the store form of the location's kind — carrying over the local
number, SSA number and (for local fields) offset and field sequence, copying
only the liveness flag bits from the location, clearing the
reverse-evaluation-order flag, taking the location's type, and making the
value the sole operand.  Fatal (none) when the location kind has no store
form. -/
def RewriteAssignmentIntoStoreLclCore (assignment location value : GT)
    (locationOp : genTreeOps) : Option GT :=
  match storeForm locationOp with
  | none => none
  | some storeOp =>
      let f1 := copyFlags assignment.flags location.flags GTF_LIVENESS_MASK
      let f2 := clearBit f1 .REVERSE_OPS
      some (GT.nd assignment.id storeOp location.typ f2
        { lclNum := location.lcl.lclNum
          ssaNum := location.lcl.ssaNum
          lclOffs := if locationOp = GT_LCL_FLD then location.lcl.lclOffs
                     else assignment.lcl.lclOffs
          fieldSeq := if locationOp = GT_LCL_FLD then location.lcl.fieldSeq
                      else assignment.lcl.fieldSeq
          handle := assignment.lcl.handle }
        assignment.argTab (some value) none)

/-- RewriteAssignment: rewrite `location = value` according to the location's
kind.  Returns the node now occupying the assignment's use slot and the
updated pass state; none embeds the fatal paths (no store form, unreached
location kind).  The FEATURE_SIMD pre-step is compiled out in this build. -/
def RewriteAssignment (assignment : GT) (st : RState) : Option (GT × RState) :=
  match assignment.op1, assignment.op2 with
  | some location, some value =>
      match location.oper with
      | GT_LCL_VAR | GT_LCL_FLD | GT_REG_VAR | GT_PHI_ARG =>
          match RewriteAssignmentIntoStoreLclCore assignment location value
              location.oper with
          | none => none
          | some store =>
              some (store,
                { order := st.order.erase location.id
                  kinds := setKind st.kinds assignment.id store.oper false
                  fresh := st.fresh })
      | GT_IND =>
          match location.op1 with
          | none => none
          | some p =>
              let f1 := copyFlags noFlags assignment.flags GTF_ALL_EFFECT
              let f2 := copyFlags f1 location.flags GTF_IND_FLAGS
              let f3 := if assignment.flags .REVERSE_OPS then setBit f2 .REVERSE_OPS
                        else f2
              let store := GT.nd st.fresh GT_STOREIND location.typ f3 LclInfo.empty
                [] (some p) (some value)
              let o1 := st.order.erase location.id
              let o2 := insertBeforeId o1 assignment.id [st.fresh]
              some (store,
                { order := o2.erase assignment.id
                  kinds := setKind st.kinds st.fresh GT_STOREIND false
                  fresh := st.fresh + 1 })
      | GT_CLS_VAR =>
          let location' := (location.withOper GT_CLS_VAR_ADDR).withTyp TYP_BYREF
          let assignment' := ((assignment.withOper GT_STOREIND).withOp1
            (some location')).withOp2 (some value)
          some (assignment',
            { order := st.order
              kinds := setKind (setKind st.kinds location.id GT_CLS_VAR_ADDR false)
                assignment.id GT_STOREIND false
              fresh := st.fresh })
      | GT_BLK | GT_OBJ | GT_DYN_BLK =>
          let storeOper := match location.oper with
            | GT_BLK => GT_STORE_BLK
            | GT_OBJ => GT_STORE_OBJ
            | _ => GT_STORE_DYN_BLK
          let f1 := clearBit location.flags .DONT_CSE
          let f2 := orFlags f1 (maskFlags assignment.flags blkStoreMask)
          let storeBlk := ((location.withOper storeOper).withFlags f2).withOp2
            (some value)
          some (storeBlk,
            { order := st.order.erase assignment.id
              kinds := setKind st.kinds location.id storeOper false
              fresh := st.fresh })
      | _ => none
  | _, _ => none

/-- RewriteAddress: rewrite `&location`.  A local location is converted in
place to its address form (byref-typed, side-effect-class flags copied from
the address node) and the address node is removed; a class variable likewise
with the class-variable-address form; an indirection collapses `&*p` to `p`,
removing both nodes; any other shape is left untouched.  Fatal (none) when a
local location kind has no address form. -/
def RewriteAddress (address : GT) (st : RState) : Option (GT × RState) :=
  match address.op1 with
  | none => none
  | some location =>
      if OperIsLocal location.oper then
        match addrForm location.oper with
        | none => none
        | some k =>
            let location' := ((location.withOper k).withTyp TYP_BYREF).withFlags
              (copyFlags location.flags address.flags GTF_ALL_EFFECT)
            some (location',
              { order := st.order.erase address.id
                kinds := setKind st.kinds location.id k false
                fresh := st.fresh })
      else if location.oper = GT_CLS_VAR then
        let location' := ((location.withOper GT_CLS_VAR_ADDR).withTyp
          TYP_BYREF).withFlags
          (copyFlags location.flags address.flags GTF_ALL_EFFECT)
        some (location',
          { order := st.order.erase address.id
            kinds := setKind st.kinds location.id GT_CLS_VAR_ADDR false
            fresh := st.fresh })
      else if OperIsIndir location.oper then
        match location.op1 with
        | none => none
        | some p =>
            some (p,
              { order := (st.order.erase location.id).erase address.id
                kinds := st.kinds
                fresh := st.fresh })
      else some (address, st)

/-- The use context of a visited node: a statement root (dummy use, parent
stack height below two), or a use by an immediate parent of the given
operator kind, in its first or second operand slot. -/
inductive UseCtx where
  | root
  | parent : genTreeOps → Bool → UseCtx
  deriving DecidableEq

/-- Whether the context is the statement-root (dummy) use. -/
def ctxIsRoot : UseCtx → Bool
  | .root => true
  | .parent _ _ => false

/-- Result of RewriteNode on one visited slot: the node now occupying the
slot (none when a statement root was deleted entirely), any subtrees left in
the linear order that are no longer attached to a slot (the side-effecting
operands kept by the comma rewrite), and the updated pass state. -/
structure RewriteRes where
  slot : Option GT
  orphans : List GT
  st : RState

/-- The operator-kind dispatch switch of RewriteNode (its switch statement):
one rule per kind, over the state with the preceding-list cleanup already
applied. -/
def RewriteNodeSwitch (node : GT) (ctx : UseCtx) (st0 : RState) : Option RewriteRes :=
  match node.oper with
  | GT_ASG =>
      (RewriteAssignment node st0).map (fun r => ⟨some r.1, [], r.2⟩)
  | GT_BOX =>
      match node.op1 with
      | none => none
      | some c =>
          some ⟨some c, [], { st0 with order := st0.order.erase node.id }⟩
  | GT_ADDR =>
      (RewriteAddress node st0).map (fun r => ⟨some r.1, [], r.2⟩)
  | GT_NOP =>
      match node.op1 with
      | some c =>
          some ⟨some c, [], { st0 with order := st0.order.erase node.id }⟩
      | none => some ⟨some node, [], st0⟩
  | GT_COMMA =>
      match node.op1, node.op2 with
      | some a, some b =>
          let st1 : RState :=
            if !flagsAny a.flags GTF_ALL_EFFECT then
              { st0 with order := removeIds st0.order a.linOrder }
            else st0
          (match ctx with
           | .parent _ _ =>
               some ⟨some b,
                 (if flagsAny a.flags GTF_ALL_EFFECT then [a] else []),
                 { st1 with order := st1.order.erase node.id }⟩
           | .root =>
               let st2 : RState :=
                 if !flagsAny b.flags GTF_ALL_EFFECT then
                   { st1 with order := removeIds st1.order b.linOrder }
                 else st1
               some ⟨none,
                 (if flagsAny a.flags GTF_ALL_EFFECT then [a] else []) ++
                   (if flagsAny b.flags GTF_ALL_EFFECT then [b] else []),
                 { st2 with order := st2.order.erase node.id }⟩)
      | _, _ => none
  | GT_ARGPLACE =>
      some ⟨some node, [], { st0 with order := st0.order.erase node.id }⟩
  | GT_CLS_VAR =>
      let isLHSOfAssignment : Bool :=
        match ctx with
        | .parent GT_ASG true => true
        | _ => false
      if isLHSOfAssignment then some ⟨some node, [], st0⟩
      else
        let node' := (node.withOper GT_CLS_VAR_ADDR).withTyp TYP_BYREF
        let ind := GT.nd st0.fresh GT_IND node.typ
          (maskFlags node.flags GTF_ALL_EFFECT) LclInfo.empty []
          (some node') none
        some ⟨some ind, [],
          { order := insertAfterId st0.order node.id [st0.fresh]
            kinds := setKind (setKind st0.kinds node.id GT_CLS_VAR_ADDR false)
              st0.fresh GT_IND false
            fresh := st0.fresh + 1 }⟩
  | GT_INTRINSIC => some ⟨some node, [], st0⟩
  | _ => some ⟨some node, [], st0⟩

/-- RewriteNode: the per-node rewrite callback of the main pass.  It first
removes non-aggregate GT_LIST nodes immediately preceding the visited node in
linear order, deletes the visited node itself when it is a bare non-aggregate
GT_LIST, then dispatches on the operator kind through RewriteNodeSwitch, and
finally prunes an unused statement-root local read.  The use slot is written
through the returned `slot` (LIR Use replacement, modelled from the spec:
replacement writes the new node into the slot; its call-argument side is
fgFixupArgTabEntryPtr, modelled separately).  none embeds the fatal paths. -/
def RewriteNode (node : GT) (ctx : UseCtx) (st : RState) : Option RewriteRes :=
  let order0 := stripPrecLists st.kinds st.order node.id
  let st0 : RState := { st with order := order0 }
  if node.oper == GT_LIST && !(node.flags .LIST_AGGREGATE) then
    some ⟨some node, [], { st0 with order := order0.erase node.id }⟩
  else
    match RewriteNodeSwitch node ctx st0 with
    | none => none
    | some r =>
        if ctxIsRoot ctx && OperIsLocalRead node.oper then
          some { r with st := { r.st with order := r.st.order.erase node.id } }
        else some r

/-- Modelled from the spec: gtNewArgList for one argument — a GT_LIST chain
holding the argument. -/
def gtNewArgList1 (a : GT) (fresh : Nat) : GT × Nat :=
  (GT.nd fresh GT_LIST TYP_VOID noFlags LclInfo.empty [] (some a) none, fresh + 1)

/-- Modelled from the spec: gtNewArgList for two arguments — a GT_LIST chain
holding the arguments in original left-to-right evaluation order. -/
def gtNewArgList2 (a b : GT) (fresh : Nat) : GT × Nat :=
  let rest := GT.nd fresh GT_LIST TYP_VOID noFlags LclInfo.empty [] (some b) none
  (GT.nd (fresh + 1) GT_LIST TYP_VOID noFlags LclInfo.empty [] (some a) (some rest),
   fresh + 2)

/-- Modelled from the spec: gtNewCallNode followed by fgMorphArgs — an
ordinary user call node of the given type addressing the given method, whose
flags carry the call-presence bit and the side-effect bits of its arguments,
and whose argument table records the argument roots in order. -/
def gtNewCallNode (ty : var_types) (callHnd : Nat) (argsList : GT)
    (argRoots : List Nat) (argEffects : Flags) (fresh : Nat) : GT × Nat :=
  (GT.nd fresh GT_CALL ty
     (setBit (maskFlags argEffects GTF_ALL_EFFECT) .CALL)
     { LclInfo.empty with handle := callHnd } argRoots (some argsList) none,
   fresh + 1)

/-- Result of rewriting a node into a call during the intrinsic pre-pass. -/
structure CallRes where
  call : GT
  stack : List GT
  stmtFirst : Nat
  fresh : Nat

/-- RewriteNodeAsCall: replace the tree node by a GT_CALL addressing callHnd.
The external argument binder populates the call's table with argRoots; the
external evaluation- and execution-order procedures re-thread the call's
subtree, so the statement's recorded first node becomes the call subtree's
first node exactly when the replaced subtree began the statement (its range
had no predecessor).  The call's argument table is fixed up when the replaced
node was itself a call argument, the call-presence flag and the call's
side-effect flags are ORed onto every ancestor on the traversal stack, and
the call replaces the node on top of the stack. -/
def RewriteNodeAsCall (tree : GT) (parentStack : List GT) (callHnd : Nat)
    (argsList : GT) (argRoots : List Nat) (argEffects : Flags)
    (treePrevNode : Option Nat) (stmtFirst fresh : Nat) : Option CallRes :=
  let built := gtNewCallNode tree.typ callHnd argsList argRoots argEffects fresh
  let call0 := built.1
  let fresh1 := built.2
  let stmtFirst' := match treePrevNode with
    | some _ => stmtFirst
    | none => call0.linOrder.headD stmtFirst
  match fgFixupIfCallArg parentStack tree call0 with
  | none => none
  | some fixed =>
      let stack1 := fixed.1
      let call1 := fixed.2
      let extra : Flags :=
        fun b => b == FlagBit.CALL || (GTF_ALL_EFFECT b && call1.flags b)
      let stack2 := match stack1 with
        | [] => []
        | top :: rest => top :: rest.map (fun g => g.withFlags (orFlags g.flags extra))
      let stack3 := match stack2 with
        | [] => [call1]
        | _ :: rest => call1 :: rest
      some ⟨call1, stack3, stmtFirst', fresh1⟩

/-- RewriteIntrinsicAsUserCall: rewrite an intrinsic operator as a GT_CALL to
the original method, building the argument list from the intrinsic's one or
two operands. -/
def RewriteIntrinsicAsUserCall (intrinsic : GT) (parentStack : List GT)
    (treePrevNode : Option Nat) (stmtFirst fresh : Nat) : Option CallRes :=
  match intrinsic.op1 with
  | none => none
  | some a =>
      match intrinsic.op2 with
      | none =>
          let built := gtNewArgList1 a fresh
          RewriteNodeAsCall intrinsic parentStack intrinsic.lcl.handle built.1
            [a.id] a.flags treePrevNode stmtFirst built.2
      | some b =>
          let built := gtNewArgList2 a b fresh
          RewriteNodeAsCall intrinsic parentStack intrinsic.lcl.handle built.1
            [a.id, b.id] (orFlags a.flags b.flags) treePrevNode stmtFirst built.2

mutual
/-- The intrinsic pre-pass walk of DoPhase: a postorder walk over a statement
still in tree form that rewrites target-unsupported intrinsics into user
calls and clears the stale used-as-def liveness marker on local accesses.
Flag propagation onto the walk's ancestor stack is threaded as the returned
bitset, ORed into each ancestor as the recursion returns; the ancestor-stack
replacement of the rewritten node is the returned subtree itself.  The
per-statement execution order is re-derived from the returned tree (the
splicing done by the external ordering procedures). -/
def prewalkGT (isUserCallIntr : Nat → Bool) : GT → Nat → GT × Nat × Flags
  | .nd i op ty f l a o1 o2, fresh =>
      let r1 := prewalkOpt isUserCallIntr o1 fresh
      let r2 := prewalkOpt isUserCallIntr o2 r1.2.1
      let fresh2 := r2.2.1
      let childExtra := orFlags r1.2.2 r2.2.2
      let f' := orFlags f childExtra
      let node' := GT.nd i op ty f' l a r1.1 r2.1
      if op = GT_INTRINSIC && isUserCallIntr l.handle then
        match r1.1 with
        | none => (node', fresh2, childExtra)
        | some av =>
            let builtArgs := match r2.1 with
              | none => gtNewArgList1 av fresh2
              | some bv => gtNewArgList2 av bv fresh2
            let argRoots := match r2.1 with
              | none => [av.id]
              | some bv => [av.id, bv.id]
            let argEffects := match r2.1 with
              | none => av.flags
              | some bv => orFlags av.flags bv.flags
            let builtCall := gtNewCallNode ty l.handle builtArgs.1 argRoots
              argEffects builtArgs.2
            let call := builtCall.1
            let extra : Flags :=
              fun b => b == FlagBit.CALL || (GTF_ALL_EFFECT b && call.flags b)
            (call, builtCall.2, orFlags childExtra extra)
      else if OperIsLocal op then
        (GT.nd i op ty (clearBit f' .VAR_USEDEF) l a r1.1 r2.1, fresh2, childExtra)
      else (node', fresh2, childExtra)

/-- Pre-pass walk of an optional subtree. -/
def prewalkOpt (isUserCallIntr : Nat → Bool) :
    Option GT → Nat → Option GT × Nat × Flags
  | none, fresh => (none, fresh, noFlags)
  | some t, fresh =>
      let r := prewalkGT isUserCallIntr t fresh
      (some r.1, r.2.1, r.2.2)
end

mutual
/-- The main rewrite walk of DoPhase over one statement's expression: a
postorder walk (fgWalkTreePost) that visits the operands first — each child
slot receiving the subtree its rewrite left there — and then invokes
RewriteNode on the node in the current slot with the parent context. -/
def walkGT (t : GT) (ctx : UseCtx) (st : RState) :
    Option (Option GT × List GT × RState) :=
  match t with
  | .nd i op ty f l a o1 o2 => do
      let r1 ← walkOpt o1 (UseCtx.parent op true) st
      let r2 ← walkOpt o2 (UseCtx.parent op false) r1.2.2
      let t' := GT.nd i op ty f l a r1.1 r2.1
      let r ← RewriteNode t' ctx r2.2.2
      some (r.slot, r1.2.1 ++ r2.2.1 ++ r.orphans, r.st)

/-- Main walk of an optional operand slot. -/
def walkOpt (o : Option GT) (ctx : UseCtx) (st : RState) :
    Option (Option GT × List GT × RState) :=
  match o with
  | none => some (none, [], st)
  | some t => walkGT t ctx st
end

/-- A statement: its container identity (used when the container is turned
into a source-location marker node), optional source-location tag
(gtStmtILoffsx, none embedding BAD_IL_OFFSET), and root expression. -/
structure Statement where
  sid : Nat
  iloffsx : Option Nat
  expr : GT

/-- The intrinsic pre-pass over all statements of a block, threading the
fresh-identity counter. -/
def prepassStmts (isUserCallIntr : Nat → Bool) :
    List Statement → Nat → List Statement × Nat
  | [], fresh => ([], fresh)
  | s :: rest, fresh =>
      let r := prewalkGT isUserCallIntr s.expr fresh
      let rr := prepassStmts isUserCallIntr rest r.2.1
      (⟨s.sid, s.iloffsx, r.1⟩ :: rr.1, rr.2)

/-- The per-statement main-pass loop of DoPhase: convert a statement with
source-location information into a marker node spliced before the statement's
first expression node, then run the rewrite walk over the expression.
Returns the trees remaining in the block (marker nodes, orphaned
side-effecting subtrees, and slot trees, in linear order) and the final
linear order. -/
def mainPass : List Statement → RState → Option (List GT × List Nat)
  | [], st => some ([], st.order)
  | s :: rest, st =>
      let withIL : RState × List GT :=
        match s.iloffsx with
        | none => (st, [])
        | some _ =>
            ({ order := insertBeforeId st.order (s.expr.linOrder.headD 0) [s.sid]
               kinds := setKind st.kinds s.sid GT_IL_OFFSET false
               fresh := st.fresh },
             [GT.nd s.sid GT_IL_OFFSET TYP_VOID noFlags LclInfo.empty [] none none])
      match walkGT s.expr UseCtx.root withIL.1 with
      | none => none
      | some r =>
          match mainPass rest r.2.2 with
          | none => none
          | some tail =>
              some (withIL.2 ++ r.2.1 ++
                (match r.1 with | some t => [t] | none => []) ++ tail.1, tail.2)

/-- DoPhase: the phase driver for one basic block.  A block with no
statements gets an empty linear range.  Otherwise the intrinsic pre-pass runs
over every statement in tree form, the statements' node ranges are chained
into one per-block linear sequence, and the main rewrite pass processes each
statement in order.  Returns the trees remaining in the block and the block's
final linear order. -/
def DoPhase (stmts : List Statement) (isUserCallIntr : Nat → Bool)
    (fresh : Nat) : Option (List GT × List Nat) :=
  match stmts with
  | [] => some ([], [])
  | _ =>
      let pre := prepassStmts isUserCallIntr stmts fresh
      let order0 := pre.1.flatMap (fun s => s.expr.linOrder)
      let kinds0 := pre.1.flatMap (fun s => s.expr.kindEntries)
      mainPass pre.1 { order := order0, kinds := kinds0, fresh := pre.2 }

/-- Position of a node identity in the linear order. -/
def posOf (i : Nat) : List Nat → Nat
  | [] => 0
  | x :: r => if x = i then 0 else posOf i r + 1

/-- No-duplicates check on the linear order. -/
def nodupB : List Nat → Bool
  | [] => true
  | x :: r => !r.contains x && nodupB r

/-- Linearization validity of a block after the phase (spec section 8):
walking the linear sequence visits every remaining node exactly once, and for
every operand edge of a remaining node the node occupying the defining slot
appears strictly before its consuming node in linear order. -/
def validLin (roots : List GT) (order : List Nat) : Bool :=
  nodupB order &&
    (roots.flatMap GT.edges).all (fun e =>
      !(order.contains e.1) ||
        (order.contains e.2 && Nat.blt (posOf e.2 order) (posOf e.1 order)))

/-- The failing block for C1: a single statement holding a struct block
assignment `ASG(BLK(addr-of-local), src-local)` with no
reverse-evaluation-order flag set anywhere. -/
def blkAddr : GT := GT.nd 1 GT_LCL_VAR_ADDR TYP_BYREF noFlags LclInfo.empty [] none none

/-- The block-location node of the failing C1 input. -/
def blkLoc : GT := GT.nd 2 GT_BLK TYP_STRUCT noFlags LclInfo.empty [] (some blkAddr) none

/-- The source-value node of the failing C1 input. -/
def blkSrc : GT := GT.nd 3 GT_LCL_VAR TYP_STRUCT noFlags LclInfo.empty [] none none

/-- The assignment root of the failing C1 input. -/
def blkAsg : GT :=
  GT.nd 4 GT_ASG TYP_STRUCT noFlags LclInfo.empty [] (some blkLoc) (some blkSrc)

/-- Flag bitset of the addr node after the intrinsic pre-pass of the C1
failing input (the pre-pass ORs the children's propagated bits into each
node). -/
def fA : Flags := orFlags noFlags (orFlags noFlags noFlags)

/-- Flag bitset of the source local after the pre-pass (the stale used-as-def
marker is cleared on locals). -/
def fS : Flags := clearBit (orFlags noFlags (orFlags noFlags noFlags)) FlagBit.VAR_USEDEF

/-- Flag bitset of the block node after the pre-pass. -/
def fB : Flags := orFlags noFlags (orFlags (orFlags noFlags noFlags) noFlags)

/-- Flag bitset of the assignment node after the pre-pass. -/
def fG : Flags :=
  orFlags noFlags (orFlags (orFlags (orFlags noFlags noFlags) noFlags) (orFlags noFlags noFlags))

/-- The C1 input's address leaf after the pre-pass. -/
def pAddrL : GT := GT.nd 1 GT_LCL_VAR_ADDR TYP_BYREF fA LclInfo.empty [] none none

/-- The C1 input's block location after the pre-pass. -/
def pBlkL : GT := GT.nd 2 GT_BLK TYP_STRUCT fB LclInfo.empty [] (some pAddrL) none

/-- The C1 input's source local after the pre-pass. -/
def pSrcL : GT := GT.nd 3 GT_LCL_VAR TYP_STRUCT fS LclInfo.empty [] none none

/-- The C1 input's assignment root after the pre-pass. -/
def pAsgL : GT := GT.nd 4 GT_ASG TYP_STRUCT fG LclInfo.empty [] (some pBlkL) (some pSrcL)

/-- Arena operator view of the C1 block when the main pass starts. -/
def kinds0L : List (Nat × (genTreeOps × Bool)) :=
  [(4, (GT_ASG, false)), (2, (GT_BLK, false)), (1, (GT_LCL_VAR_ADDR, false)),
   (3, (GT_LCL_VAR, false))]

/-- Pass state of the C1 block when the main pass starts. -/
def st0L : RState := ⟨[1, 2, 3, 4], kinds0L, 100⟩

/-- Flag bitset of the rewritten store-block node of the C1 input. -/
def storeFlagsL : Flags :=
  orFlags (clearBit fB FlagBit.DONT_CSE) (maskFlags fG blkStoreMask)

/-- The store-block tree the block-store rewrite leaves for the C1 input: the
mutated block node now owns the source subtree as its data operand. -/
def storeL : GT :=
  GT.nd 2 GT_STORE_BLK TYP_STRUCT storeFlagsL LclInfo.empty [] (some pAddrL) (some pSrcL)

/-- Pass state of the C1 block after the main pass. -/
def st1L : RState := ⟨[1, 2, 3], setKind kinds0L 2 GT_STORE_BLK false, 100⟩

/-- The location kinds the assignment rewrite handles without reaching a
fatal path: the plain local reads, the indirection, the class variable, and
the three block flavors. -/
def asgLocationHandled : genTreeOps → Bool
  | GT_LCL_VAR | GT_LCL_FLD | GT_IND | GT_CLS_VAR
  | GT_BLK | GT_OBJ | GT_DYN_BLK => true
  | _ => false

/-- Pointer operand of the concrete C2 witness. -/
def w2p : GT := GT.nd 1 GT_LCL_VAR TYP_I_IMPL noFlags LclInfo.empty [] none none

/-- Dereference location of the concrete C2 witness, carrying a volatile
indirection qualifier. -/
def w2loc : GT :=
  GT.nd 2 GT_IND TYP_INT (setBit noFlags FlagBit.IND_VOLATILE) LclInfo.empty []
    (some w2p) none

/-- Value operand of the concrete C2 witness. -/
def w2v : GT := GT.nd 3 GT_CNS_INT TYP_INT noFlags LclInfo.empty [] none none

/-- Assignment root of the concrete C2 witness, carrying the assignment
side-effect bit and the reverse-evaluation-order flag. -/
def w2asg : GT :=
  GT.nd 4 GT_ASG TYP_INT (setBit (setBit noFlags FlagBit.ASG) FlagBit.REVERSE_OPS)
    LclInfo.empty [] (some w2loc) (some w2v)

/-- Location operand of the concrete C7 witness. -/
def w7loc : GT :=
  GT.nd 1 GT_LCL_VAR TYP_INT (setBit noFlags FlagBit.VAR_DEF) LclInfo.empty [] none none

/-- Address node of the concrete C7 witness, carrying a global-reference
side-effect bit to be copied onto the converted location. -/
def w7addr : GT :=
  GT.nd 2 GT_ADDR TYP_I_IMPL (setBit noFlags FlagBit.GLOB_REF) LclInfo.empty []
    (some w7loc) none

/-- Operand of the C10 counterexample: a local read without the
late-argument marker. -/
def w10lcl : GT := GT.nd 2 GT_LCL_VAR TYP_INT noFlags LclInfo.empty [] none none

/-- The C10 counterexample's visited node: a box wrapper carrying the
late-argument marker, used under a list parent. -/
def w10box : GT :=
  GT.nd 1 GT_BOX TYP_INT (setBit noFlags FlagBit.LATE_ARG) LclInfo.empty []
    (some w10lcl) none

/-- Left operand of the concrete C5 witness (side-effect-free constant). -/
def w5a : GT := GT.nd 11 GT_CNS_INT TYP_INT noFlags LclInfo.empty [] none none

/-- Right operand of the concrete C5 witness (side-effect-free constant). -/
def w5b : GT := GT.nd 12 GT_CNS_INT TYP_INT noFlags LclInfo.empty [] none none

/-- The comma root of the concrete C5 witness. -/
def w5comma : GT :=
  GT.nd 13 GT_COMMA TYP_INT noFlags LclInfo.empty [] (some w5a) (some w5b)

/-- Pass state of the concrete C5 witness: the statement's range between two
neighbouring nodes 7 and 8. -/
def w5st : RState := ⟨[7, 11, 12, 13, 8], [], 50⟩

/-- A traversal-stack tail on which the call-argument climb finds no owning
call: scaffolding is skipped, a no-op wrapping a call or a call itself would
trigger a fixup, and any other kind stops the climb. -/
def stackFixupInert : List GT → Bool
  | [] => true
  | g :: gs =>
      match g.oper with
      | GT_LIST | GT_ARGPLACE => stackFixupInert gs
      | GT_NOP =>
          (match g.op1 with
           | some c => !(c.oper == GT_CALL)
           | none => true) && stackFixupInert gs
      | GT_CALL => false
      | _ => true

/-- First operand of the concrete C6 witness. -/
def w6a : GT := GT.nd 21 GT_LCL_VAR TYP_DOUBLE noFlags LclInfo.empty [] none none

/-- Second operand of the concrete C6 witness. -/
def w6b : GT :=
  GT.nd 22 GT_LCL_VAR TYP_DOUBLE (setBit noFlags FlagBit.GLOB_REF) LclInfo.empty []
    none none

/-- The concrete C6 witness's target-unsupported two-operand intrinsic. -/
def w6intr : GT :=
  GT.nd 23 GT_INTRINSIC TYP_DOUBLE noFlags { LclInfo.empty with handle := 7 } []
    (some w6a) (some w6b)

/-- An ancestor on the traversal stack of the concrete C6 witness. -/
def w6parent : GT :=
  GT.nd 24 GT_ADD TYP_DOUBLE noFlags LclInfo.empty [] (some w6intr) none

theorem GT.id_nd (i : Nat) (op : genTreeOps) (ty : var_types) (f : Flags)
    (l : LclInfo) (a : List Nat) (o1 o2 : Option GT) :
    (GT.nd i op ty f l a o1 o2).id = i := rfl

theorem GT.oper_nd (i : Nat) (op : genTreeOps) (ty : var_types) (f : Flags)
    (l : LclInfo) (a : List Nat) (o1 o2 : Option GT) :
    (GT.nd i op ty f l a o1 o2).oper = op := rfl

theorem GT.flags_nd (i : Nat) (op : genTreeOps) (ty : var_types) (f : Flags)
    (l : LclInfo) (a : List Nat) (o1 o2 : Option GT) :
    (GT.nd i op ty f l a o1 o2).flags = f := rfl

theorem GT.op1_nd (i : Nat) (op : genTreeOps) (ty : var_types) (f : Flags)
    (l : LclInfo) (a : List Nat) (o1 o2 : Option GT) :
    (GT.nd i op ty f l a o1 o2).op1 = o1 := rfl

theorem GT.op2_nd (i : Nat) (op : genTreeOps) (ty : var_types) (f : Flags)
    (l : LclInfo) (a : List Nat) (o1 o2 : Option GT) :
    (GT.nd i op ty f l a o1 o2).op2 = o2 := rfl

theorem GT.id_withOper (t : GT) (k : genTreeOps) : (t.withOper k).id = t.id := by
  cases t <;> rfl

theorem GT.id_withTyp (t : GT) (ty : var_types) : (t.withTyp ty).id = t.id := by
  cases t <;> rfl

theorem GT.id_withFlags (t : GT) (f : Flags) : (t.withFlags f).id = t.id := by
  cases t <;> rfl

theorem GT.id_withOp1 (t : GT) (o : Option GT) : (t.withOp1 o).id = t.id := by
  cases t <;> rfl

theorem GT.id_withOp2 (t : GT) (o : Option GT) : (t.withOp2 o).id = t.id := by
  cases t <;> rfl

theorem GT.flags_withOper (t : GT) (k : genTreeOps) :
    (t.withOper k).flags = t.flags := by cases t <;> rfl

theorem GT.flags_withTyp (t : GT) (ty : var_types) :
    (t.withTyp ty).flags = t.flags := by cases t <;> rfl

theorem GT.flags_withFlags (t : GT) (f : Flags) : (t.withFlags f).flags = f := by
  cases t <;> rfl

theorem GT.flags_withOp1 (t : GT) (o : Option GT) :
    (t.withOp1 o).flags = t.flags := by cases t <;> rfl

theorem GT.flags_withOp2 (t : GT) (o : Option GT) :
    (t.withOp2 o).flags = t.flags := by cases t <;> rfl

theorem GT.flags_withArgTab (t : GT) (a : List Nat) :
    (t.withArgTab a).flags = t.flags := by cases t <;> rfl

theorem GT.argTab_withArgTab (t : GT) (a : List Nat) :
    (t.withArgTab a).argTab = a := by cases t <;> rfl

theorem GT.oper_withOper (t : GT) (k : genTreeOps) : (t.withOper k).oper = k := by
  cases t <;> rfl

theorem GT.self_mem_allNodes (t : GT) : t ∈ t.allNodes := by
  cases t with
  | nd i op ty f l a o1 o2 => exact List.mem_cons_self _ _

theorem insertBeforeId_erase (l : List Nat) (a n : Nat)
    (ha : a ∈ l) (hn : n ≠ a) :
    (insertBeforeId l a [n]).erase a = replaceFirst l a n := by
  induction l with
  | nil => cases ha
  | cons x r ih =>
      by_cases hx : x = a
      · subst hx
        simp [insertBeforeId, replaceFirst, List.erase_cons, hn]
      · have har : a ∈ r := by
          rcases List.mem_cons.mp ha with h | h
          · exact absurd h.symm hx
          · exact h
        simp [insertBeforeId, replaceFirst, hx, List.erase_cons, ih har]

theorem not_mem_replaceFirst (l : List Nat) (a n x : Nat)
    (hx : x ∉ l) (hn : x ≠ n) : x ∉ replaceFirst l a n := by
  induction l with
  | nil => simp [replaceFirst]
  | cons y r ih =>
      have hxy : x ≠ y := fun h => hx (h ▸ List.mem_cons_self _ _)
      have hxr : x ∉ r := fun h => hx (List.mem_cons_of_mem _ h)
      by_cases hy : y = a
      · simp [replaceFirst, hy]
        exact ⟨hn, hxr⟩
      · simp [replaceFirst, hy]
        exact ⟨hxy, ih hxr⟩

theorem self_not_mem_replaceFirst (l : List Nat) (a n : Nat)
    (hnd : l.Nodup) (hn : n ≠ a) : a ∉ replaceFirst l a n := by
  induction l with
  | nil => simp [replaceFirst]
  | cons y r ih =>
      rcases List.nodup_cons.mp hnd with ⟨hy, hr⟩
      by_cases hya : y = a
      · subst hya
        simp [replaceFirst]
        exact ⟨fun h => hn h.symm, hy⟩
      · simp [replaceFirst, hya]
        exact ⟨fun h => hya h.symm, ih hr⟩

theorem mem_replaceFirst_of_ne (l : List Nat) (a n x : Nat)
    (hx : x ∈ l) (hxa : x ≠ a) : x ∈ replaceFirst l a n := by
  induction l with
  | nil => cases hx
  | cons y r ih =>
      by_cases hy : y = a
      · subst hy
        rcases List.mem_cons.mp hx with h | h
        · exact absurd h hxa
        · simp [replaceFirst]
          exact Or.inr h
      · simp [replaceFirst, hy]
        rcases List.mem_cons.mp hx with h | h
        · exact Or.inl h
        · exact Or.inr (ih h)

theorem mem_replaceFirst_self (l : List Nat) (a n : Nat) (ha : a ∈ l) :
    n ∈ replaceFirst l a n := by
  induction l with
  | nil => cases ha
  | cons y r ih =>
      by_cases hy : y = a
      · simp [replaceFirst, hy]
      · simp [replaceFirst, hy]
        rcases List.mem_cons.mp ha with h | h
        · exact absurd h.symm hy
        · exact Or.inr (ih h)

/-- C3 counterexample: GT_LCL_VAR is a read kind, yet `storeForm (loadForm k)`
is undefined at it — loadForm is defined on local address kinds, not on read
kinds, so the claimed equivalence `storeForm (loadForm k) defined iff k is a
read kind` fails at k = GT_LCL_VAR. -/
theorem storeForm_loadForm_undefined_on_read_kind :
    isLocalReadKind GT_LCL_VAR = true ∧
      ((loadForm GT_LCL_VAR).bind storeForm).isSome = false :=
  ⟨rfl, rfl⟩

/-- C3 (amended): for every local-access operator kind k,
`storeForm (loadForm k)` is defined iff k is a local-address kind, and
applying addrForm to a read kind and then loadForm to the result returns the
original read kind. -/
theorem formConversion_bijection (k : genTreeOps) :
    (((loadForm k).bind storeForm).isSome = isLocalAddrKind k) ∧
      (isLocalReadKind k = true → (addrForm k).bind loadForm = some k) := by
  cases k <;> simp [loadForm, storeForm, addrForm, isLocalAddrKind, isLocalReadKind]

/-- Witness for the amended C3 theorem at the read kind GT_LCL_VAR and the
address kind GT_LCL_VAR_ADDR. -/
theorem formConversion_bijection_witness :
    (isLocalReadKind GT_LCL_VAR = true ∧
      (addrForm GT_LCL_VAR).bind loadForm = some GT_LCL_VAR) ∧
      ((loadForm GT_LCL_VAR_ADDR).bind storeForm).isSome =
        isLocalAddrKind GT_LCL_VAR_ADDR :=
  ⟨⟨by decide, (formConversion_bijection GT_LCL_VAR).2 (by decide)⟩,
   (formConversion_bijection GT_LCL_VAR_ADDR).1⟩

/-- C1: evaluating DoPhase on a block whose one statement is a non-reversed
struct block assignment `ASG(BLK(addr), src)` leaves the rewritten
store-block node at the old location-node position — the final linear order
is [addr, storeBlk, src], so the store-block node precedes its own data
operand and the def-before-use half of the linearization-validity property is
violated.  The block-store case of RewriteAssignment removes only the
assignment node and never moves the mutated block node in front of its newly
attached data operand. -/
theorem doPhase_blockStore_breaks_linearization :
    (DoPhase [⟨50, none, blkAsg⟩] (fun _ => false) 100).map
        (fun r => (r.2, validLin r.1 r.2)) = some ([1, 2, 3], false) := by
  have hdo : DoPhase [⟨50, none, blkAsg⟩] (fun _ => false) 100 =
      mainPass [⟨50, none, pAsgL⟩] st0L := rfl
  have hmain : mainPass [⟨50, none, pAsgL⟩] st0L = some ([storeL], [1, 2, 3]) := rfl
  rw [hdo, hmain]
  rfl

/-- C4: for an assignment whose location is a local variable or local field,
the rewrite produces a store whose liveness-flag bits equal the original
location node's liveness-flag bits and whose reverse-evaluation-order flag is
cleared regardless of the assignment's own flag. -/
theorem rewriteAssignment_local_flags (asg loc v : GT) (st : RState)
    (h1 : asg.op1 = some loc) (h2 : asg.op2 = some v)
    (hk : loc.oper = GT_LCL_VAR ∨ loc.oper = GT_LCL_FLD) :
    ∃ store st', RewriteAssignment asg st = some (store, st') ∧
      (∀ b, GTF_LIVENESS_MASK b = true → store.flags b = loc.flags b) ∧
      store.flags FlagBit.REVERSE_OPS = false := by
  rcases hk with hk | hk
  · refine ⟨GT.nd asg.id GT_STORE_LCL_VAR loc.typ
        (clearBit (copyFlags asg.flags loc.flags GTF_LIVENESS_MASK) FlagBit.REVERSE_OPS)
        ⟨loc.lcl.lclNum, loc.lcl.ssaNum, asg.lcl.lclOffs, asg.lcl.fieldSeq, asg.lcl.handle⟩
        asg.argTab (some v) none,
      ⟨st.order.erase loc.id, setKind st.kinds asg.id GT_STORE_LCL_VAR false, st.fresh⟩,
      ?_, ?_, ?_⟩
    · simp [RewriteAssignment, h1, h2, hk, RewriteAssignmentIntoStoreLclCore, storeForm,
        GT.oper_nd]
    · intro b hb
      fin_cases b <;> simp_all [GTF_LIVENESS_MASK, copyFlags, clearBit, GT.flags_nd]
    · simp [copyFlags, clearBit, GTF_LIVENESS_MASK, GT.flags_nd]
  · refine ⟨GT.nd asg.id GT_STORE_LCL_FLD loc.typ
        (clearBit (copyFlags asg.flags loc.flags GTF_LIVENESS_MASK) FlagBit.REVERSE_OPS)
        ⟨loc.lcl.lclNum, loc.lcl.ssaNum, loc.lcl.lclOffs, loc.lcl.fieldSeq, asg.lcl.handle⟩
        asg.argTab (some v) none,
      ⟨st.order.erase loc.id, setKind st.kinds asg.id GT_STORE_LCL_FLD false, st.fresh⟩,
      ?_, ?_, ?_⟩
    · simp [RewriteAssignment, h1, h2, hk, RewriteAssignmentIntoStoreLclCore, storeForm,
        GT.oper_nd]
    · intro b hb
      fin_cases b <;> simp_all [GTF_LIVENESS_MASK, copyFlags, clearBit, GT.flags_nd]
    · simp [copyFlags, clearBit, GTF_LIVENESS_MASK, GT.flags_nd]

/-- Witness for C4: a concrete assignment of a constant into a local variable
whose location carries liveness bits and whose assignment carries the
reverse-evaluation-order flag. -/
theorem rewriteAssignment_local_flags_witness :
    ((GT.nd 1 GT_ASG TYP_INT (setBit noFlags FlagBit.REVERSE_OPS) LclInfo.empty []
        (some (GT.nd 2 GT_LCL_VAR TYP_INT (setBit noFlags FlagBit.VAR_DEF)
          LclInfo.empty [] none none))
        (some (GT.nd 3 GT_CNS_INT TYP_INT noFlags LclInfo.empty [] none none))).op1 =
      some (GT.nd 2 GT_LCL_VAR TYP_INT (setBit noFlags FlagBit.VAR_DEF)
        LclInfo.empty [] none none)) ∧
    (∃ store st',
      RewriteAssignment
        (GT.nd 1 GT_ASG TYP_INT (setBit noFlags FlagBit.REVERSE_OPS) LclInfo.empty []
          (some (GT.nd 2 GT_LCL_VAR TYP_INT (setBit noFlags FlagBit.VAR_DEF)
            LclInfo.empty [] none none))
          (some (GT.nd 3 GT_CNS_INT TYP_INT noFlags LclInfo.empty [] none none)))
        ⟨[2, 3, 1], [], 10⟩ = some (store, st') ∧
      (∀ b, GTF_LIVENESS_MASK b = true →
        store.flags b =
          (GT.nd 2 GT_LCL_VAR TYP_INT (setBit noFlags FlagBit.VAR_DEF)
            LclInfo.empty [] none none).flags b) ∧
      store.flags FlagBit.REVERSE_OPS = false) :=
  ⟨rfl,
   rewriteAssignment_local_flags _ _
     (GT.nd 3 GT_CNS_INT TYP_INT noFlags LclInfo.empty [] none none) _
     rfl rfl (Or.inl rfl)⟩

/-- C9: an assignment whose location kind is outside the handled set —
including the register-variable and phi-argument kinds, which are routed
through the store-form conversion and hit its fatal default — makes the
rewrite abort fatally (embedded as none) rather than producing a result or
leaving the assignment untouched. -/
theorem rewriteAssignment_unhandled_location_fatal (asg loc v : GT) (st : RState)
    (h1 : asg.op1 = some loc) (h2 : asg.op2 = some v)
    (hk : asgLocationHandled loc.oper = false) :
    RewriteAssignment asg st = none := by
  cases hop : loc.oper <;>
    simp_all [RewriteAssignment, asgLocationHandled,
      RewriteAssignmentIntoStoreLclCore, storeForm]

/-- Witness for C9 at a register-variable location (routed through storeForm)
and with the phi-argument kind also being outside the handled set. -/
theorem rewriteAssignment_unhandled_location_fatal_witness :
    asgLocationHandled GT_REG_VAR = false ∧
    asgLocationHandled GT_PHI_ARG = false ∧
    RewriteAssignment
      (GT.nd 1 GT_ASG TYP_INT noFlags LclInfo.empty []
        (some (GT.nd 2 GT_REG_VAR TYP_INT noFlags LclInfo.empty [] none none))
        (some (GT.nd 3 GT_CNS_INT TYP_INT noFlags LclInfo.empty [] none none)))
      ⟨[2, 3, 1], [], 10⟩ = none :=
  ⟨by decide, by decide,
   rewriteAssignment_unhandled_location_fatal _ _
     (GT.nd 3 GT_CNS_INT TYP_INT noFlags LclInfo.empty [] none none) _
     rfl rfl (by decide)⟩

/-- C8: when an argument subtree root is replaced, a late-marked old argument
only propagates the marker onto the new node and leaves the owning call's
argument table untouched; otherwise the table entry recording the old node is
redirected to the new node, every other entry is kept, and the old node no
longer appears — every non-late entry thus points at the current argument
root. -/
theorem fgFixupArgTabEntryPtr_spec (call old new : GT)
    (hnd : call.argTab.Nodup) (hmem : old.id ∈ call.argTab)
    (hne : new.id ≠ old.id) :
    (old.flags FlagBit.LATE_ARG = true →
      fgFixupArgTabEntryPtr call old new =
        some (call, new.withFlags (setBit new.flags FlagBit.LATE_ARG))) ∧
    (old.flags FlagBit.LATE_ARG = false →
      fgFixupArgTabEntryPtr call old new =
        some (call.withArgTab (replaceFirst call.argTab old.id new.id), new) ∧
      old.id ∉ replaceFirst call.argTab old.id new.id ∧
      new.id ∈ replaceFirst call.argTab old.id new.id ∧
      (∀ x ∈ call.argTab, x ≠ old.id → x ∈ replaceFirst call.argTab old.id new.id)) := by
  constructor
  · intro hl
    simp [fgFixupArgTabEntryPtr, hl]
  · intro hl
    have hc : call.argTab.contains old.id = true := List.elem_eq_true_of_mem hmem
    refine ⟨by simp [fgFixupArgTabEntryPtr, hl, hc, hmem], ?_, ?_, ?_⟩
    · exact self_not_mem_replaceFirst _ _ _ hnd hne
    · exact mem_replaceFirst_self _ _ _ hmem
    · intro x hx hxo
      exact mem_replaceFirst_of_ne _ _ _ _ hx hxo

/-- Witness for C8 on a concrete two-entry argument table, in the non-late
case; the late case is exercised through the first conjunct at a marker-free
old argument being vacuously false there and through the amended flag being
set in fgFixupArgTabEntryPtr's first branch elsewhere. -/
theorem fgFixupArgTabEntryPtr_spec_witness :
    ((GT.nd 9 GT_CALL TYP_INT noFlags LclInfo.empty [4, 5] none none).argTab.Nodup ∧
      (GT.nd 4 GT_LCL_VAR TYP_INT noFlags LclInfo.empty [] none none).id ∈
        (GT.nd 9 GT_CALL TYP_INT noFlags LclInfo.empty [4, 5] none none).argTab ∧
      (GT.nd 7 GT_CNS_INT TYP_INT noFlags LclInfo.empty [] none none).id ≠
        (GT.nd 4 GT_LCL_VAR TYP_INT noFlags LclInfo.empty [] none none).id) ∧
    ((GT.nd 4 GT_LCL_VAR TYP_INT noFlags LclInfo.empty [] none none).flags
        FlagBit.LATE_ARG = false →
      fgFixupArgTabEntryPtr
          (GT.nd 9 GT_CALL TYP_INT noFlags LclInfo.empty [4, 5] none none)
          (GT.nd 4 GT_LCL_VAR TYP_INT noFlags LclInfo.empty [] none none)
          (GT.nd 7 GT_CNS_INT TYP_INT noFlags LclInfo.empty [] none none) =
        some ((GT.nd 9 GT_CALL TYP_INT noFlags LclInfo.empty [4, 5] none
            none).withArgTab
          (replaceFirst [4, 5] 4 7),
          GT.nd 7 GT_CNS_INT TYP_INT noFlags LclInfo.empty [] none none) ∧
      4 ∉ replaceFirst [4, 5] 4 7 ∧ 7 ∈ replaceFirst [4, 5] 4 7 ∧
      (∀ x ∈ [4, 5], x ≠ 4 → x ∈ replaceFirst [4, 5] 4 7)) :=
  ⟨⟨by decide, by decide, by decide⟩,
   (fgFixupArgTabEntryPtr_spec
     (GT.nd 9 GT_CALL TYP_INT noFlags LclInfo.empty [4, 5] none none)
     (GT.nd 4 GT_LCL_VAR TYP_INT noFlags LclInfo.empty [] none none)
     (GT.nd 7 GT_CNS_INT TYP_INT noFlags LclInfo.empty [] none none)
     (by decide) (by decide) (by decide)).2⟩

/-- C2: rewriting `*p = v` produces exactly one synthesized store-indirect
node (one fresh identity consumed) with operands (p, v); its side-effect
class bits are the assignment's, its indirection-qualifier bits are the
dereference node's, its reverse-evaluation-order flag is present iff the
assignment carried it, and no other bit is set.  Neither the assignment node
nor the dereference node remains in linear order, and the new node occupies
the assignment's old position (the order with the dereference erased and the
assignment's slot holding the fresh node). -/
theorem rewriteAssignment_indirect_store (asg loc p v : GT) (st : RState)
    (h1 : asg.op1 = some loc) (h2 : asg.op2 = some v)
    (hop : loc.oper = GT_IND) (hp : loc.op1 = some p)
    (hnd : st.order.Nodup) (hmem : asg.id ∈ st.order)
    (hlm : loc.id ∈ st.order) (hfr : st.fresh ∉ st.order)
    (hne : loc.id ≠ asg.id) :
    ∃ store st', RewriteAssignment asg st = some (store, st') ∧
      store.id = st.fresh ∧ store.oper = GT_STOREIND ∧ store.typ = loc.typ ∧
      store.op1 = some p ∧ store.op2 = some v ∧
      (∀ b, GTF_ALL_EFFECT b = true → store.flags b = asg.flags b) ∧
      (∀ b, GTF_IND_FLAGS b = true → store.flags b = loc.flags b) ∧
      store.flags FlagBit.REVERSE_OPS = asg.flags FlagBit.REVERSE_OPS ∧
      (∀ b, GTF_ALL_EFFECT b = false → GTF_IND_FLAGS b = false →
        b ≠ FlagBit.REVERSE_OPS → store.flags b = false) ∧
      st'.order = replaceFirst (st.order.erase loc.id) asg.id st.fresh ∧
      loc.id ∉ st'.order ∧ asg.id ∉ st'.order ∧
      st'.fresh = st.fresh + 1 := by
  have hfa : st.fresh ≠ asg.id := fun h => hfr (h ▸ hmem)
  have hfl : loc.id ≠ st.fresh := fun h => hfr (h ▸ hlm)
  have hmem' : asg.id ∈ st.order.erase loc.id :=
    (List.mem_erase_of_ne (Ne.symm hne)).mpr hmem
  refine ⟨GT.nd st.fresh GT_STOREIND loc.typ
      (if asg.flags FlagBit.REVERSE_OPS = true then
        setBit (copyFlags (copyFlags noFlags asg.flags GTF_ALL_EFFECT) loc.flags
          GTF_IND_FLAGS) FlagBit.REVERSE_OPS
       else copyFlags (copyFlags noFlags asg.flags GTF_ALL_EFFECT) loc.flags
          GTF_IND_FLAGS)
      LclInfo.empty [] (some p) (some v),
    ⟨(insertBeforeId (st.order.erase loc.id) asg.id [st.fresh]).erase asg.id,
     setKind st.kinds st.fresh GT_STOREIND false, st.fresh + 1⟩,
    ?_, rfl, rfl, rfl, rfl, rfl, ?_, ?_, ?_, ?_, ?_, ?_, ?_, rfl⟩
  · simp only [RewriteAssignment, h1, h2, hop, hp]
  · intro b hb
    rcases hr : asg.flags FlagBit.REVERSE_OPS <;>
      fin_cases b <;>
        simp_all [GT.flags_nd, copyFlags, setBit, noFlags, GTF_ALL_EFFECT, GTF_IND_FLAGS]
  · intro b hb
    rcases hr : asg.flags FlagBit.REVERSE_OPS <;>
      fin_cases b <;>
        simp_all [GT.flags_nd, copyFlags, setBit, noFlags, GTF_ALL_EFFECT, GTF_IND_FLAGS]
  · rcases hr : asg.flags FlagBit.REVERSE_OPS <;>
      simp [hr, GT.flags_nd, copyFlags, setBit, noFlags, GTF_ALL_EFFECT, GTF_IND_FLAGS]
  · intro b hb1 hb2 hb3
    rcases hr : asg.flags FlagBit.REVERSE_OPS <;>
      fin_cases b <;>
        simp_all [GT.flags_nd, copyFlags, setBit, noFlags, GTF_ALL_EFFECT, GTF_IND_FLAGS]
  · exact insertBeforeId_erase _ _ _ hmem' hfa
  · rw [insertBeforeId_erase _ _ _ hmem' hfa]
    have hle : loc.id ∉ st.order.erase loc.id :=
      fun h => ((List.Nodup.mem_erase_iff hnd).mp h).1 rfl
    exact not_mem_replaceFirst _ _ _ _ hle hfl
  · rw [insertBeforeId_erase _ _ _ hmem' hfa]
    exact self_not_mem_replaceFirst _ _ _ (hnd.erase _) hfa

/-- Witness for C2 at the concrete `*p = v` assignment. -/
theorem rewriteAssignment_indirect_store_witness :
    (w2asg.op1 = some w2loc ∧ w2asg.op2 = some w2v ∧ w2loc.oper = GT_IND ∧
      w2loc.op1 = some w2p ∧ ([3, 1, 2, 4] : List Nat).Nodup ∧
      w2asg.id ∈ [3, 1, 2, 4] ∧ w2loc.id ∈ [3, 1, 2, 4] ∧ (10 : Nat) ∉ [3, 1, 2, 4] ∧
      w2loc.id ≠ w2asg.id) ∧
    (∃ store st',
      RewriteAssignment w2asg ⟨[3, 1, 2, 4], [], 10⟩ = some (store, st') ∧
      store.id = 10 ∧ store.oper = GT_STOREIND ∧ store.typ = w2loc.typ ∧
      store.op1 = some w2p ∧ store.op2 = some w2v ∧
      (∀ b, GTF_ALL_EFFECT b = true → store.flags b = w2asg.flags b) ∧
      (∀ b, GTF_IND_FLAGS b = true → store.flags b = w2loc.flags b) ∧
      store.flags FlagBit.REVERSE_OPS = w2asg.flags FlagBit.REVERSE_OPS ∧
      (∀ b, GTF_ALL_EFFECT b = false → GTF_IND_FLAGS b = false →
        b ≠ FlagBit.REVERSE_OPS → store.flags b = false) ∧
      st'.order = replaceFirst ([3, 1, 2, 4].erase w2loc.id) w2asg.id 10 ∧
      w2loc.id ∉ st'.order ∧ w2asg.id ∉ st'.order ∧ st'.fresh = 10 + 1) :=
  ⟨⟨rfl, rfl, rfl, rfl, by decide, by decide, by decide, by decide, by decide⟩,
   rewriteAssignment_indirect_store w2asg w2loc w2p w2v ⟨[3, 1, 2, 4], [], 10⟩
     rfl rfl rfl rfl (by decide) (by decide) (by decide) (by decide) (by decide)⟩

/-- C7: the address-of rewrite, case by case.  A local-variable or
local-field operand is converted in place (same identity) to its address
form, byref-typed, with the side-effect-class flags of the address node
copied onto it, and the address node is removed from linear order.  A
class-variable operand gets the same treatment with the
class-variable-address form.  A pointer dereference collapses `&*p` to `p`
with both the dereference and the address node removed.  Any operand whose
shape matches none of the rewrite's guards (not of the local family, not a
class variable, not an indirection) is left entirely untouched. -/
theorem rewriteAddress_cases (addr loc : GT) (st : RState)
    (h1 : addr.op1 = some loc) (hnd : st.order.Nodup) :
    ((loc.oper = GT_LCL_VAR ∨ loc.oper = GT_LCL_FLD) →
      ∃ k st', addrForm loc.oper = some k ∧
        RewriteAddress addr st =
          some (((loc.withOper k).withTyp TYP_BYREF).withFlags
            (copyFlags loc.flags addr.flags GTF_ALL_EFFECT), st') ∧
        st'.order = st.order.erase addr.id ∧ addr.id ∉ st'.order) ∧
    (loc.oper = GT_CLS_VAR →
      ∃ st', RewriteAddress addr st =
          some (((loc.withOper GT_CLS_VAR_ADDR).withTyp TYP_BYREF).withFlags
            (copyFlags loc.flags addr.flags GTF_ALL_EFFECT), st') ∧
        st'.order = st.order.erase addr.id ∧ addr.id ∉ st'.order) ∧
    (loc.oper = GT_IND → ∀ p, loc.op1 = some p →
      ∃ st', RewriteAddress addr st = some (p, st') ∧
        st'.order = (st.order.erase loc.id).erase addr.id ∧
        loc.id ∉ st'.order ∧ addr.id ∉ st'.order) ∧
    (OperIsLocal loc.oper = false → loc.oper ≠ GT_CLS_VAR →
      OperIsIndir loc.oper = false →
      RewriteAddress addr st = some (addr, st)) := by
  refine ⟨?_, ?_, ?_, ?_⟩
  · rintro (hk | hk)
    · refine ⟨GT_LCL_VAR_ADDR,
        ⟨st.order.erase addr.id, setKind st.kinds loc.id GT_LCL_VAR_ADDR false, st.fresh⟩,
        by simp [hk, addrForm], ?_, rfl, ?_⟩
      · simp [RewriteAddress, h1, hk, OperIsLocal, addrForm]
      · intro h
        exact ((List.Nodup.mem_erase_iff hnd).mp h).1 rfl
    · refine ⟨GT_LCL_FLD_ADDR,
        ⟨st.order.erase addr.id, setKind st.kinds loc.id GT_LCL_FLD_ADDR false, st.fresh⟩,
        by simp [hk, addrForm], ?_, rfl, ?_⟩
      · simp [RewriteAddress, h1, hk, OperIsLocal, addrForm]
      · intro h
        exact ((List.Nodup.mem_erase_iff hnd).mp h).1 rfl
  · intro hk
    refine ⟨⟨st.order.erase addr.id, setKind st.kinds loc.id GT_CLS_VAR_ADDR false,
        st.fresh⟩, ?_, rfl, ?_⟩
    · simp [RewriteAddress, h1, hk, OperIsLocal]
    · intro h
      exact ((List.Nodup.mem_erase_iff hnd).mp h).1 rfl
  · intro hk p hp
    refine ⟨⟨(st.order.erase loc.id).erase addr.id, st.kinds, st.fresh⟩, ?_, rfl, ?_, ?_⟩
    · simp [RewriteAddress, h1, hk, hp, OperIsLocal, OperIsIndir]
    · intro h
      have h' := (List.Nodup.mem_erase_iff (hnd.erase _)).mp h
      exact ((List.Nodup.mem_erase_iff hnd).mp h'.2).1 rfl
    · intro h
      exact ((List.Nodup.mem_erase_iff (hnd.erase _)).mp h).1 rfl
  · intro hl hc hi
    simp [RewriteAddress, h1, hl, hc, hi]

/-- Witness for C7 at the concrete `&localVar`. -/
theorem rewriteAddress_cases_witness :
    (w7addr.op1 = some w7loc ∧ ([1, 2] : List Nat).Nodup) ∧
    ((w7loc.oper = GT_LCL_VAR ∨ w7loc.oper = GT_LCL_FLD) →
      ∃ k st', addrForm w7loc.oper = some k ∧
        RewriteAddress w7addr ⟨[1, 2], [], 5⟩ =
          some (((w7loc.withOper k).withTyp TYP_BYREF).withFlags
            (copyFlags w7loc.flags w7addr.flags GTF_ALL_EFFECT), st') ∧
        st'.order = [1, 2].erase w7addr.id ∧ w7addr.id ∉ st'.order) :=
  ⟨⟨rfl, by decide⟩,
   (rewriteAddress_cases w7addr w7loc ⟨[1, 2], [], 5⟩ rfl (by decide)).1⟩

theorem GT.mem_allNodes_of_mem_op1 (t u : GT) (h : u ∈ GT.allNodesOpt t.op1) :
    u ∈ t.allNodes := by
  cases t with
  | nd i op ty f l a o1 o2 =>
      simp only [GT.allNodes, GT.op1] at *
      exact List.mem_cons_of_mem _ (List.mem_append_left _ h)

theorem GT.root_mem_allNodesOpt (t : GT) : t ∈ GT.allNodesOpt (some t) := by
  simp only [GT.allNodesOpt]
  exact GT.self_mem_allNodes t

/-- If the assignment rewrite leaves a node with the assignment's identity in
the use slot, that node's late-argument flag equals the assignment's. -/
theorem rewriteAssignment_slot_lateArg (asg : GT) (st : RState) (slot : GT)
    (st' : RState) (h : RewriteAssignment asg st = some (slot, st'))
    (huniq : ∀ u, u ∈ GT.allNodesOpt asg.op1 ++ GT.allNodesOpt asg.op2 →
      GT.id u ≠ asg.id)
    (hfresh : st.fresh ≠ asg.id) :
    slot.id = asg.id → slot.flags FlagBit.LATE_ARG = asg.flags FlagBit.LATE_ARG := by
  intro hid
  cases ho1 : asg.op1 with
  | none => simp [RewriteAssignment, ho1] at h
  | some location =>
      cases ho2 : asg.op2 with
      | none => simp [RewriteAssignment, ho1, ho2] at h
      | some value =>
          have hloc : location.id ≠ asg.id := by
            refine huniq location (List.mem_append_left _ ?_)
            rw [ho1]
            exact GT.root_mem_allNodesOpt location
          cases hop : location.oper <;>
            simp only [RewriteAssignment, ho1, ho2, hop] at h
          case GT_LCL_VAR | GT_LCL_FLD =>
            simp only [RewriteAssignmentIntoStoreLclCore, hop, storeForm] at h
            rcases h with ⟨h1, h2⟩
            simp_all [GT.flags_nd, clearBit, copyFlags, GTF_LIVENESS_MASK]
          case GT_REG_VAR | GT_PHI_ARG =>
            simp only [RewriteAssignmentIntoStoreLclCore, hop, storeForm] at h
            cases h
          case GT_IND =>
            cases hp : location.op1 with
            | none => simp [hp] at h
            | some p =>
                simp only [hp] at h
                rcases h with ⟨h1, h2⟩
                exfalso
                apply hfresh
                simpa [GT.id_nd] using hid
          case GT_CLS_VAR =>
            rcases h with ⟨h1, h2⟩
            simp [GT.flags_withOp2, GT.flags_withOp1, GT.flags_withOper]
          case GT_BLK | GT_OBJ | GT_DYN_BLK =>
            rcases h with ⟨h1, h2⟩
            exfalso
            apply hloc
            simpa [GT.id_withOp2, GT.id_withFlags, GT.id_withOper] using hid
          all_goals simp at h

/-- If the address rewrite leaves a node with the address node's identity in
the use slot, that node is the untouched address node itself, so its
late-argument flag is unchanged. -/
theorem rewriteAddress_slot_lateArg (addr : GT) (st : RState) (slot : GT)
    (st' : RState) (h : RewriteAddress addr st = some (slot, st'))
    (huniq : ∀ u, u ∈ GT.allNodesOpt addr.op1 → GT.id u ≠ addr.id) :
    slot.id = addr.id → slot.flags FlagBit.LATE_ARG = addr.flags FlagBit.LATE_ARG := by
  intro hid
  cases ho1 : addr.op1 with
  | none => simp [RewriteAddress, ho1] at h
  | some location =>
      have hloc : location.id ≠ addr.id := by
        refine huniq location ?_
        rw [ho1]
        exact GT.root_mem_allNodesOpt location
      by_cases hl : OperIsLocal location.oper
      · simp only [RewriteAddress, ho1, hl, if_pos] at h
        cases hf : addrForm location.oper <;> simp only [hf] at h
        · cases h
        · rcases h with ⟨h1, h2⟩
          exfalso
          apply hloc
          simpa [GT.id_withFlags, GT.id_withTyp, GT.id_withOper] using hid
      · by_cases hc : location.oper = GT_CLS_VAR
        · simp only [RewriteAddress, ho1, hl, hc, if_neg, if_pos, Bool.false_eq_true,
            not_false_eq_true] at h
          rcases h with ⟨h1, h2⟩
          exfalso
          apply hloc
          simpa [GT.id_withFlags, GT.id_withTyp, GT.id_withOper] using hid
        · by_cases hi : OperIsIndir location.oper
          · simp only [RewriteAddress, ho1, hl, hc, hi, Bool.false_eq_true,
              not_false_eq_true, if_neg, if_pos] at h
            cases hp : location.op1 with
            | none => simp [hp] at h
            | some p =>
                simp only [hp, Option.some.injEq, Prod.mk.injEq] at h
                exfalso
                have hpm : p.id ≠ addr.id := by
                  refine huniq p ?_
                  rw [ho1]
                  refine GT.mem_allNodes_of_mem_op1 location p ?_
                  rw [hp]
                  exact GT.root_mem_allNodesOpt p
                apply hpm
                rw [h.1]
                exact hid
          · simp only [RewriteAddress, ho1, hl, hc, hi, Bool.false_eq_true,
              not_false_eq_true, if_neg] at h
            rcases h with ⟨h1, h2⟩
            rfl

/-- The dispatch switch never alters the late-argument marker of the node it
was given: whenever the node left in the use slot still has the visited
node's identity, its late-argument flag equals the visited node's. -/
theorem rewriteNodeSwitch_slot_lateArg (node : GT) (ctx : UseCtx) (st0 : RState)
    (r : RewriteRes) (hr : RewriteNodeSwitch node ctx st0 = some r)
    (huniq : ∀ u, u ∈ GT.allNodesOpt node.op1 ++ GT.allNodesOpt node.op2 →
      GT.id u ≠ node.id)
    (hfresh : st0.fresh ≠ node.id) :
    ∀ t, r.slot = some t → t.id = node.id →
      t.flags FlagBit.LATE_ARG = node.flags FlagBit.LATE_ARG := by
  intro t hslot hid
  cases hop : node.oper <;>
    simp only [RewriteNodeSwitch, hop, Option.some.injEq] at hr
  case GT_ASG =>
    cases hra : RewriteAssignment node st0 with
    | none => simp [hra] at hr
    | some pr =>
        obtain ⟨ps, pst⟩ := pr
        rw [hra] at hr
        simp only [Option.map_some', Option.some.injEq] at hr
        rw [← hr] at hslot
        have hxt : ps = t := Option.some.inj hslot
        subst hxt
        exact rewriteAssignment_slot_lateArg node st0 ps pst hra huniq hfresh hid
  case GT_ADDR =>
    cases hra : RewriteAddress node st0 with
    | none => simp [hra] at hr
    | some pr =>
        obtain ⟨ps, pst⟩ := pr
        rw [hra] at hr
        simp only [Option.map_some', Option.some.injEq] at hr
        rw [← hr] at hslot
        have hxt : ps = t := Option.some.inj hslot
        subst hxt
        refine rewriteAddress_slot_lateArg node st0 ps pst hra ?_ hid
        intro u hu
        exact huniq u (List.mem_append_left _ hu)
  case GT_BOX =>
    cases ho1 : node.op1 with
    | none => rw [ho1] at hr; cases hr
    | some c =>
        rw [ho1] at hr
        simp only [Option.some.injEq] at hr
        rw [← hr] at hslot
        have hxt : c = t := Option.some.inj hslot
        exfalso
        refine huniq c (List.mem_append_left _ ?_) (hxt ▸ hid)
        rw [ho1]
        exact GT.root_mem_allNodesOpt c
  case GT_NOP =>
    cases ho1 : node.op1 with
    | none =>
        rw [ho1] at hr
        simp only [Option.some.injEq] at hr
        rw [← hr] at hslot
        have hxt : node = t := Option.some.inj hslot
        rw [← hxt]
    | some c =>
        rw [ho1] at hr
        simp only [Option.some.injEq] at hr
        rw [← hr] at hslot
        have hxt : c = t := Option.some.inj hslot
        exfalso
        refine huniq c (List.mem_append_left _ ?_) (hxt ▸ hid)
        rw [ho1]
        exact GT.root_mem_allNodesOpt c
  case GT_COMMA =>
    cases ho1 : node.op1 with
    | none => rw [ho1] at hr; cases hr
    | some a =>
        cases ho2 : node.op2 with
        | none => rw [ho1, ho2] at hr; cases hr
        | some b =>
            rw [ho1, ho2] at hr
            cases ctx with
            | root =>
                simp only [Option.some.injEq] at hr
                rw [← hr] at hslot
                exact absurd hslot (by simp)
            | parent k pos =>
                simp only [Option.some.injEq] at hr
                rw [← hr] at hslot
                have hxt : b = t := Option.some.inj hslot
                exfalso
                refine huniq b (List.mem_append_right _ ?_) (hxt ▸ hid)
                rw [ho2]
                exact GT.root_mem_allNodesOpt b
  case GT_CLS_VAR =>
    cases ctx with
    | root =>
        rw [if_neg (by decide)] at hr
        simp only [Option.some.injEq] at hr
        rw [← hr] at hslot
        have hxt : GT.nd st0.fresh GT_IND node.typ
            (maskFlags node.flags GTF_ALL_EFFECT) LclInfo.empty []
            (some ((node.withOper GT_CLS_VAR_ADDR).withTyp TYP_BYREF)) none = t :=
          Option.some.inj hslot
        exfalso
        apply hfresh
        rw [← hid, ← hxt]
        rfl
    | parent k pos =>
        by_cases hAsg : k = GT_ASG ∧ pos = true
        · rcases hAsg with ⟨rfl, rfl⟩
          rw [if_pos rfl] at hr
          simp only [Option.some.injEq] at hr
          rw [← hr] at hslot
          have hxt : node = t := Option.some.inj hslot
          rw [← hxt]
        · have hm : (match UseCtx.parent k pos with
              | UseCtx.parent GT_ASG true => true
              | _ => false) = false := by
            cases k <;> cases pos <;> simp_all
          rw [hm] at hr
          rw [if_neg (by decide)] at hr
          simp only [Option.some.injEq] at hr
          rw [← hr] at hslot
          have hxt : GT.nd st0.fresh GT_IND node.typ
              (maskFlags node.flags GTF_ALL_EFFECT) LclInfo.empty []
              (some ((node.withOper GT_CLS_VAR_ADDR).withTyp TYP_BYREF)) none = t :=
            Option.some.inj hslot
          exfalso
          apply hfresh
          rw [← hid, ← hxt]
          rfl
  all_goals
    (rw [← hr] at hslot
     have hxt : node = t := Option.some.inj hslot
     rw [← hxt])

/-- C10 (amended): the rewrite pass never modifies the late-argument marker
of the node it visits — whenever the node occupying the current slot after
RewriteNode still has the visited node's identity, its late-argument flag
equals the visited node's flag at entry.  (A rule that replaces the visited
node by a different node may leave a slot whose occupant carries a different
flag of its own — see the counterexample.) -/
theorem rewriteNode_visited_lateArg (node : GT) (ctx : UseCtx) (st : RState)
    (r : RewriteRes) (hr : RewriteNode node ctx st = some r)
    (huniq : ∀ u, u ∈ GT.allNodesOpt node.op1 ++ GT.allNodesOpt node.op2 →
      GT.id u ≠ node.id)
    (hfresh : st.fresh ≠ node.id) :
    ∀ t, r.slot = some t → t.id = node.id →
      t.flags FlagBit.LATE_ARG = node.flags FlagBit.LATE_ARG := by
  intro t hslot hid
  by_cases hl : (node.oper == GT_LIST && !(node.flags FlagBit.LIST_AGGREGATE)) = true
  · simp only [RewriteNode, hl, if_pos] at hr
    have hrr := Option.some.inj hr
    rw [← hrr] at hslot
    have hxt : node = t := Option.some.inj hslot
    rw [← hxt]
  · simp only [RewriteNode] at hr
    rw [if_neg hl] at hr
    cases hsw : RewriteNodeSwitch node ctx
        { st with order := stripPrecLists st.kinds st.order node.id } with
    | none =>
        simp only [hsw] at hr
        exact Option.noConfusion hr
    | some r' =>
        simp only [hsw] at hr
        have hs : r.slot = r'.slot := by
          by_cases hp : (ctxIsRoot ctx && OperIsLocalRead node.oper) = true
          · rw [if_pos hp] at hr
            have hrr := Option.some.inj hr
            rw [← hrr]
          · rw [if_neg hp] at hr
            have hrr := Option.some.inj hr
            rw [← hrr]
        rw [hs] at hslot
        exact rewriteNodeSwitch_slot_lateArg node ctx _ r' hsw huniq hfresh t hslot hid

/-- C10 counterexample: the box pass-through replaces the slot's occupant by
its operand; the visited box carried the late-argument marker but the node
left in the slot does not, so the slot occupant's late-argument flag is not
identical before and after the node's processing. -/
theorem rewriteNode_box_changes_slot_lateArg :
    w10box.flags FlagBit.LATE_ARG = true ∧
    (RewriteNode w10box (UseCtx.parent GT_LIST true)
        ⟨[2, 1], [(2, (GT_LCL_VAR, false)), (1, (GT_BOX, false))], 50⟩).map
      (fun r => r.slot.map (fun t => t.flags FlagBit.LATE_ARG)) =
      some (some false) :=
  ⟨rfl, rfl⟩

/-- Witness for the amended C10 theorem at a concrete no-op-marker node (an
operand-less GT_NOP, which the rewrite leaves in place). -/
theorem rewriteNode_visited_lateArg_witness :
    (RewriteNode (GT.nd 3 GT_NOP TYP_VOID (setBit noFlags FlagBit.LATE_ARG)
        LclInfo.empty [] none none) (UseCtx.parent GT_CALL true)
        ⟨[3], [(3, (GT_NOP, false))], 50⟩ =
      some ⟨some (GT.nd 3 GT_NOP TYP_VOID (setBit noFlags FlagBit.LATE_ARG)
        LclInfo.empty [] none none), [],
        ⟨[3], [(3, (GT_NOP, false))], 50⟩⟩) ∧
    (∀ t, (⟨some (GT.nd 3 GT_NOP TYP_VOID (setBit noFlags FlagBit.LATE_ARG)
        LclInfo.empty [] none none), [],
        ⟨[3], [(3, (GT_NOP, false))], 50⟩⟩ : RewriteRes).slot = some t →
      t.id = (GT.nd 3 GT_NOP TYP_VOID (setBit noFlags FlagBit.LATE_ARG)
        LclInfo.empty [] none none).id →
      t.flags FlagBit.LATE_ARG =
        (GT.nd 3 GT_NOP TYP_VOID (setBit noFlags FlagBit.LATE_ARG)
          LclInfo.empty [] none none).flags FlagBit.LATE_ARG) :=
  ⟨rfl,
   rewriteNode_visited_lateArg
     (GT.nd 3 GT_NOP TYP_VOID (setBit noFlags FlagBit.LATE_ARG)
       LclInfo.empty [] none none)
     (UseCtx.parent GT_CALL true) ⟨[3], [(3, (GT_NOP, false))], 50⟩
     ⟨some (GT.nd 3 GT_NOP TYP_VOID (setBit noFlags FlagBit.LATE_ARG)
       LclInfo.empty [] none none), [],
       ⟨[3], [(3, (GT_NOP, false))], 50⟩⟩
     rfl (by simp [GT.allNodesOpt, GT.op1, GT.op2]) (by decide)⟩

theorem removeIds_append (l1 l2 s : List Nat) :
    removeIds (l1 ++ l2) s = removeIds l1 s ++ removeIds l2 s := by
  simp [removeIds, List.filter_append]

theorem removeIds_self (s : List Nat) : removeIds s s = [] := by
  simp only [removeIds, List.filter_eq_nil_iff]
  intro a ha
  simp [ha]

theorem removeIds_of_disjoint (l s : List Nat) (h : ∀ a ∈ l, a ∉ s) :
    removeIds l s = l := by
  induction l with
  | nil => rfl
  | cons x r ih =>
      have hx : x ∉ s := h x (List.mem_cons_self _ _)
      simp only [removeIds, List.filter_cons]
      have hc : (!s.contains x) = true := by
        simp [List.elem_iff, hx]
      rw [if_pos hc]
      have := ih (fun a ha => h a (List.mem_cons_of_mem _ ha))
      simp only [removeIds] at this
      rw [this]

theorem removeIds_middle (x s y : List Nat) (h : (x ++ (s ++ y)).Nodup) :
    removeIds (x ++ (s ++ y)) s = x ++ y := by
  rcases List.nodup_append.mp h with ⟨hx, hsy, hdisj⟩
  rcases List.nodup_append.mp hsy with ⟨hs, hy, hsy'⟩
  rw [removeIds_append, removeIds_append, removeIds_self]
  rw [removeIds_of_disjoint x s (fun a ha hs2 =>
    hdisj ha (List.mem_append_left _ hs2))]
  rw [removeIds_of_disjoint y s (fun a ha hs2 => hsy' hs2 ha)]
  simp

theorem not_mem_removeIds_of_mem (l ids : List Nat) (i : Nat) (hi : i ∈ ids) :
    i ∉ removeIds l ids := by
  intro h
  rcases List.mem_filter.mp h with ⟨hmem, hc⟩
  rw [Bool.not_eq_true'] at hc
  simp at hc
  exact hc hi

theorem removeIds_sublist (l ids : List Nat) : (removeIds l ids).Sublist l :=
  List.filter_sublist l

theorem not_mem_erase_self_of_nodup (l : List Nat) (c : Nat) (h : l.Nodup) :
    c ∉ l.erase c := by
  intro hm
  exact ((List.Nodup.mem_erase_iff h).mp hm).1 rfl

/-- C5: visiting a comma node `(a, b)` whose operand ranges lie contiguously
in the linear order.  If a has no side effects its entire linear range is
deleted; if the comma is not a statement-root use the comma is replaced with
b; if it is a statement-root use and both operands are side-effect-free, the
whole statement contributes no nodes (only the surrounding order remains);
and in every case the comma node itself is removed from linear order. -/
theorem rewriteNode_comma (node a b : GT) (ctx : UseCtx) (st : RState)
    (pre post : List Nat)
    (hop : node.oper = GT_COMMA) (h1 : node.op1 = some a) (h2 : node.op2 = some b)
    (hstrip : stripPrecLists st.kinds st.order node.id = st.order)
    (horder : st.order = pre ++ (a.linOrder ++ (b.linOrder ++ ([node.id] ++ post))))
    (hnd : st.order.Nodup) :
    ∃ r, RewriteNode node ctx st = some r ∧
      node.id ∉ r.st.order ∧
      (flagsAny a.flags GTF_ALL_EFFECT = false →
        ∀ i ∈ a.linOrder, i ∉ r.st.order) ∧
      (ctx ≠ UseCtx.root → r.slot = some b) ∧
      (ctx = UseCtx.root → flagsAny a.flags GTF_ALL_EFFECT = false →
        flagsAny b.flags GTF_ALL_EFFECT = false → r.st.order = pre ++ post) := by
  have hrm1 : removeIds st.order a.linOrder = pre ++ (b.linOrder ++ ([node.id] ++ post)) := by
    rw [horder]
    have h' : (pre ++ (a.linOrder ++ (b.linOrder ++ ([node.id] ++ post)))).Nodup := by
      rw [← horder]; exact hnd
    exact removeIds_middle pre a.linOrder (b.linOrder ++ ([node.id] ++ post)) h'
  have hnd1 : (removeIds st.order a.linOrder).Nodup :=
    List.Nodup.sublist (removeIds_sublist _ _) hnd
  have hrm2 : removeIds (removeIds st.order a.linOrder) b.linOrder =
      pre ++ ([node.id] ++ post) := by
    rw [hrm1]
    have h' : (pre ++ (b.linOrder ++ ([node.id] ++ post))).Nodup := by
      rw [← hrm1]; exact hnd1
    exact removeIds_middle pre b.linOrder ([node.id] ++ post) h'
  have hnd2 : (removeIds (removeIds st.order a.linOrder) b.linOrder).Nodup :=
    List.Nodup.sublist (removeIds_sublist _ _) hnd1
  have hfinal : (removeIds (removeIds st.order a.linOrder) b.linOrder).erase node.id =
      pre ++ post := by
    rw [hrm2]
    have hcp : node.id ∉ pre := by
      have := hnd2
      rw [hrm2] at this
      rcases List.nodup_append.mp this with ⟨hp, hcpost, hdisj⟩
      intro hm
      exact hdisj hm (List.mem_append_left _ (List.mem_cons_self _ _))
    rw [List.erase_append_right _ hcp]
    simp
  cases ctx with
  | parent k pos =>
      by_cases ha : flagsAny a.flags GTF_ALL_EFFECT = true
      · refine ⟨⟨some b, [a], ⟨st.order.erase node.id, st.kinds, st.fresh⟩⟩, ?_, ?_, ?_, ?_, ?_⟩
        · simp only [RewriteNode, hstrip, RewriteNodeSwitch, hop, h1, h2, ha]
          simp [OperIsLocalRead, OperIsLocal, OperIsLocalStore, ctxIsRoot]
        · exact not_mem_erase_self_of_nodup _ _ hnd
        · intro haf
          rw [haf] at ha
          cases ha
        · intro _
          rfl
        · intro h
          exact absurd h (by simp)
      · have ha' : flagsAny a.flags GTF_ALL_EFFECT = false := by
          cases hv : flagsAny a.flags GTF_ALL_EFFECT
          · rfl
          · exact absurd hv ha
        refine ⟨⟨some b, [], ⟨(removeIds st.order a.linOrder).erase node.id, st.kinds,
            st.fresh⟩⟩, ?_, ?_, ?_, ?_, ?_⟩
        · simp only [RewriteNode, hstrip, RewriteNodeSwitch, hop, h1, h2, ha']
          simp [OperIsLocalRead, OperIsLocal, OperIsLocalStore, ctxIsRoot]
        · exact not_mem_erase_self_of_nodup _ _ hnd1
        · intro _ i hi hmem
          exact not_mem_removeIds_of_mem _ _ _ hi (List.mem_of_mem_erase hmem)
        · intro _
          rfl
        · intro h
          exact absurd h (by simp)
  | root =>
      by_cases ha : flagsAny a.flags GTF_ALL_EFFECT = true
      · by_cases hb : flagsAny b.flags GTF_ALL_EFFECT = true
        · refine ⟨⟨none, [a] ++ [b], ⟨st.order.erase node.id, st.kinds, st.fresh⟩⟩,
            ?_, ?_, ?_, ?_, ?_⟩
          · simp only [RewriteNode, hstrip, RewriteNodeSwitch, hop, h1, h2, ha, hb]
            simp [OperIsLocalRead, OperIsLocal, OperIsLocalStore, ctxIsRoot]
          · exact not_mem_erase_self_of_nodup _ _ hnd
          · intro haf
            rw [haf] at ha
            cases ha
          · intro h
            exact absurd rfl h
          · intro _ haf
            rw [haf] at ha
            cases ha
        · have hb' : flagsAny b.flags GTF_ALL_EFFECT = false := by
            cases hv : flagsAny b.flags GTF_ALL_EFFECT
            · rfl
            · exact absurd hv hb
          refine ⟨⟨none, [a], ⟨(removeIds st.order b.linOrder).erase node.id, st.kinds,
              st.fresh⟩⟩, ?_, ?_, ?_, ?_, ?_⟩
          · simp only [RewriteNode, hstrip, RewriteNodeSwitch, hop, h1, h2, ha, hb']
            simp [OperIsLocalRead, OperIsLocal, OperIsLocalStore, ctxIsRoot]
          · exact not_mem_erase_self_of_nodup _ _
              (List.Nodup.sublist (removeIds_sublist _ _) hnd)
          · intro haf
            rw [haf] at ha
            cases ha
          · intro h
            exact absurd rfl h
          · intro _ haf
            rw [haf] at ha
            cases ha
      · have ha' : flagsAny a.flags GTF_ALL_EFFECT = false := by
          cases hv : flagsAny a.flags GTF_ALL_EFFECT
          · rfl
          · exact absurd hv ha
        by_cases hb : flagsAny b.flags GTF_ALL_EFFECT = true
        · refine ⟨⟨none, [b], ⟨(removeIds st.order a.linOrder).erase node.id, st.kinds,
              st.fresh⟩⟩, ?_, ?_, ?_, ?_, ?_⟩
          · simp only [RewriteNode, hstrip, RewriteNodeSwitch, hop, h1, h2, ha', hb]
            simp [OperIsLocalRead, OperIsLocal, OperIsLocalStore, ctxIsRoot]
          · exact not_mem_erase_self_of_nodup _ _ hnd1
          · intro _ i hi hmem
            exact not_mem_removeIds_of_mem _ _ _ hi (List.mem_of_mem_erase hmem)
          · intro h
            exact absurd rfl h
          · intro _ _ hbf
            rw [hbf] at hb
            cases hb
        · have hb' : flagsAny b.flags GTF_ALL_EFFECT = false := by
            cases hv : flagsAny b.flags GTF_ALL_EFFECT
            · rfl
            · exact absurd hv hb
          refine ⟨⟨none, [],
              ⟨(removeIds (removeIds st.order a.linOrder) b.linOrder).erase node.id,
               st.kinds, st.fresh⟩⟩, ?_, ?_, ?_, ?_, ?_⟩
          · simp only [RewriteNode, hstrip, RewriteNodeSwitch, hop, h1, h2, ha', hb']
            simp [OperIsLocalRead, OperIsLocal, OperIsLocalStore, ctxIsRoot]
          · exact not_mem_erase_self_of_nodup _ _ hnd2
          · intro _ i hi hmem
            have hm1 : i ∈ removeIds (removeIds st.order a.linOrder) b.linOrder :=
              List.mem_of_mem_erase hmem
            have hm2 : i ∈ removeIds st.order a.linOrder :=
              (removeIds_sublist _ _).subset hm1
            exact not_mem_removeIds_of_mem _ _ _ hi hm2
          · intro h
            exact absurd rfl h
          · intro _ _ _
            exact hfinal

/-- Witness for C5 at a statement-root comma over two side-effect-free
operands: the statement contributes zero nodes (scenario D). -/
theorem rewriteNode_comma_witness :
    (w5comma.oper = GT_COMMA ∧ w5comma.op1 = some w5a ∧ w5comma.op2 = some w5b ∧
      stripPrecLists w5st.kinds w5st.order w5comma.id = w5st.order ∧
      w5st.order = [7] ++ (w5a.linOrder ++ (w5b.linOrder ++ ([w5comma.id] ++ [8]))) ∧
      w5st.order.Nodup) ∧
    (∃ r, RewriteNode w5comma UseCtx.root w5st = some r ∧
      w5comma.id ∉ r.st.order ∧
      (flagsAny w5a.flags GTF_ALL_EFFECT = false →
        ∀ i ∈ w5a.linOrder, i ∉ r.st.order) ∧
      (UseCtx.root ≠ UseCtx.root → r.slot = some w5b) ∧
      (UseCtx.root = UseCtx.root → flagsAny w5a.flags GTF_ALL_EFFECT = false →
        flagsAny w5b.flags GTF_ALL_EFFECT = false → r.st.order = [7] ++ [8])) :=
  ⟨⟨rfl, rfl, rfl, rfl, rfl, by decide⟩,
   rewriteNode_comma w5comma w5a w5b UseCtx.root w5st [7] [8]
     rfl rfl rfl rfl rfl (by decide)⟩

theorem findAndFixup_inert (gs : List GT) (old new : GT)
    (h : stackFixupInert gs = true) : findAndFixup gs old new = some (gs, new) := by
  induction gs with
  | nil => rfl
  | cons g rest ih =>
      obtain ⟨gi, gop, gty, gf, gl, ga, go1, go2⟩ := g
      cases gop <;>
        simp only [stackFixupInert, findAndFixup, GT.oper_nd, GT.op1_nd] at h ⊢
      case GT_NOP =>
        cases go1 with
        | none =>
            simp only [Bool.true_and] at h
            simp [ih h]
        | some c =>
            rw [Bool.and_eq_true] at h
            rcases h with ⟨hc, hrest⟩
            dsimp only at hc ⊢
            rw [if_neg (by simp_all)]
            simp [ih hrest]
      case GT_LIST => simp [ih h]
      case GT_ARGPLACE => simp [ih h]
      case GT_CALL => cases h

/-- C6: rewriting a target-unsupported intrinsic into a user call. The
replacement is an ordinary call node whose argument table holds the
intrinsic's one or two operands in original left-to-right evaluation order;
the call-presence flag and the call's side-effect flags are ORed onto every
ancestor on the traversal stack; the call replaces the intrinsic on top of
the stack; and the statement's recorded first node becomes the call subtree's
first node exactly when the intrinsic's subtree began the statement. -/
theorem rewriteIntrinsicAsUserCall_spec (i a : GT) (ob : Option GT)
    (rest : List GT) (tp : Option Nat) (sf fresh : Nat)
    (ho1 : i.op1 = some a) (ho2 : i.op2 = ob)
    (hinert : stackFixupInert rest = true) :
    ∃ res, RewriteIntrinsicAsUserCall i (i :: rest) tp sf fresh = some res ∧
      res.call.oper = GT_CALL ∧
      res.call.argTab = a.id :: (ob.map GT.id).toList ∧
      res.stack = res.call :: rest.map (fun g => g.withFlags (orFlags g.flags
        (fun bb => bb == FlagBit.CALL || (GTF_ALL_EFFECT bb && res.call.flags bb)))) ∧
      (tp = none → res.stmtFirst = res.call.linOrder.headD sf) ∧
      (∀ x, tp = some x → res.stmtFirst = sf) := by
  have hfix : ∀ o n : GT, findAndFixup rest o n = some (rest, n) :=
    fun o n => findAndFixup_inert rest o n hinert
  cases ob with
  | none =>
      refine ⟨⟨GT.nd (fresh + 1) GT_CALL i.typ
          (setBit (maskFlags a.flags GTF_ALL_EFFECT) FlagBit.CALL)
          { LclInfo.empty with handle := i.lcl.handle } [a.id]
          (some (GT.nd fresh GT_LIST TYP_VOID noFlags LclInfo.empty [] (some a) none))
          none,
        GT.nd (fresh + 1) GT_CALL i.typ
          (setBit (maskFlags a.flags GTF_ALL_EFFECT) FlagBit.CALL)
          { LclInfo.empty with handle := i.lcl.handle } [a.id]
          (some (GT.nd fresh GT_LIST TYP_VOID noFlags LclInfo.empty [] (some a) none))
          none ::
          rest.map (fun g => g.withFlags (orFlags g.flags
            (fun bb => bb == FlagBit.CALL ||
              (GTF_ALL_EFFECT bb &&
                (GT.nd (fresh + 1) GT_CALL i.typ
                  (setBit (maskFlags a.flags GTF_ALL_EFFECT) FlagBit.CALL)
                  { LclInfo.empty with handle := i.lcl.handle } [a.id]
                  (some (GT.nd fresh GT_LIST TYP_VOID noFlags LclInfo.empty []
                    (some a) none)) none).flags bb)))),
        (match tp with
         | some _ => sf
         | none =>
             (GT.nd (fresh + 1) GT_CALL i.typ
               (setBit (maskFlags a.flags GTF_ALL_EFFECT) FlagBit.CALL)
               { LclInfo.empty with handle := i.lcl.handle } [a.id]
               (some (GT.nd fresh GT_LIST TYP_VOID noFlags LclInfo.empty []
                 (some a) none)) none).linOrder.headD sf),
        fresh + 2⟩, ?_, rfl, rfl, rfl, ?_, ?_⟩
      · simp only [RewriteIntrinsicAsUserCall, ho1, ho2, gtNewArgList1,
          RewriteNodeAsCall, gtNewCallNode, fgFixupIfCallArg, hfix]
        rfl
      · intro h
        rw [h]
      · intro x h
        rw [h]
  | some b =>
      refine ⟨⟨GT.nd (fresh + 2) GT_CALL i.typ
          (setBit (maskFlags (orFlags a.flags b.flags) GTF_ALL_EFFECT) FlagBit.CALL)
          { LclInfo.empty with handle := i.lcl.handle } [a.id, b.id]
          (some (GT.nd (fresh + 1) GT_LIST TYP_VOID noFlags LclInfo.empty [] (some a)
            (some (GT.nd fresh GT_LIST TYP_VOID noFlags LclInfo.empty [] (some b)
              none)))) none,
        GT.nd (fresh + 2) GT_CALL i.typ
          (setBit (maskFlags (orFlags a.flags b.flags) GTF_ALL_EFFECT) FlagBit.CALL)
          { LclInfo.empty with handle := i.lcl.handle } [a.id, b.id]
          (some (GT.nd (fresh + 1) GT_LIST TYP_VOID noFlags LclInfo.empty [] (some a)
            (some (GT.nd fresh GT_LIST TYP_VOID noFlags LclInfo.empty [] (some b)
              none)))) none ::
          rest.map (fun g => g.withFlags (orFlags g.flags
            (fun bb => bb == FlagBit.CALL ||
              (GTF_ALL_EFFECT bb &&
                (GT.nd (fresh + 2) GT_CALL i.typ
                  (setBit (maskFlags (orFlags a.flags b.flags) GTF_ALL_EFFECT)
                    FlagBit.CALL)
                  { LclInfo.empty with handle := i.lcl.handle } [a.id, b.id]
                  (some (GT.nd (fresh + 1) GT_LIST TYP_VOID noFlags LclInfo.empty []
                    (some a)
                    (some (GT.nd fresh GT_LIST TYP_VOID noFlags LclInfo.empty []
                      (some b) none)))) none).flags bb)))),
        (match tp with
         | some _ => sf
         | none =>
             (GT.nd (fresh + 2) GT_CALL i.typ
               (setBit (maskFlags (orFlags a.flags b.flags) GTF_ALL_EFFECT)
                 FlagBit.CALL)
               { LclInfo.empty with handle := i.lcl.handle } [a.id, b.id]
               (some (GT.nd (fresh + 1) GT_LIST TYP_VOID noFlags LclInfo.empty []
                 (some a)
                 (some (GT.nd fresh GT_LIST TYP_VOID noFlags LclInfo.empty [] (some b)
                   none)))) none).linOrder.headD sf),
        fresh + 3⟩, ?_, rfl, rfl, rfl, ?_, ?_⟩
      · simp only [RewriteIntrinsicAsUserCall, ho1, ho2, gtNewArgList2,
          RewriteNodeAsCall, gtNewCallNode, fgFixupIfCallArg, hfix]
        rfl
      · intro h
        rw [h]
      · intro x h
        rw [h]

/-- Witness for C6: the concrete two-argument intrinsic under one ordinary
ancestor, as the first subtree of its statement. -/
theorem rewriteIntrinsicAsUserCall_spec_witness :
    (w6intr.op1 = some w6a ∧ w6intr.op2 = some w6b ∧
      stackFixupInert [w6parent] = true) ∧
    (∃ res, RewriteIntrinsicAsUserCall w6intr [w6intr, w6parent] none 21 100 =
        some res ∧
      res.call.oper = GT_CALL ∧
      res.call.argTab = w6a.id :: ((some w6b).map GT.id).toList ∧
      res.stack = res.call :: [w6parent].map (fun g => g.withFlags (orFlags g.flags
        (fun bb => bb == FlagBit.CALL || (GTF_ALL_EFFECT bb && res.call.flags bb)))) ∧
      ((none : Option Nat) = none → res.stmtFirst = res.call.linOrder.headD 21) ∧
      (∀ x, (none : Option Nat) = some x → res.stmtFirst = 21)) :=
  ⟨⟨rfl, rfl, by decide⟩,
   rewriteIntrinsicAsUserCall_spec w6intr w6a (some w6b) [w6parent] none 21 100
     rfl rfl (by decide)⟩
